import Mathlib

/-!
# Disc interface and sector stream of `pce_fast/cdrom/cdromif.cpp`

A shallow embedding of the synchronous disc interface (`CDIF`, `CDIF_ST`) and of
the sector stream (`CDIF_Stream_Thing`).

Conventions of the embedding:

* a `uint8*` is a `Mem`: the bytes found at each offset from the pointer;
* `uint32`, `uint64` values are `Nat`, `int64` and `int` values are `Int`, and
  every conversion or wrapping operation of the source is written out
  (`u32`, `u64`, `i64`);
* the disc-access backend (`CDAccess`) and the EDC/ECC codec
  (`edc_lec_check_and_correct`) are not part of the file: they are fields of an
  environment `Env`; a backend operation that throws reports `ok = false`;
* every operation returns, next to its result, the list of backend calls it made;
* a failing `assert` ends the call with `Outcome.assert_failed`.
-/

namespace Cdromif

/-! ## Machine integers and memory -/

/-- One byte. -/
abbrev uint8 := Fin 256

/-- Memory reachable from a `uint8*`: the byte at every offset. -/
abbrev Mem := Nat → uint8

/-- Conversion of a non-negative value to `uint32`. -/
def u32 (n : Nat) : Nat := n % 4294967296

/-- Conversion of an integer to `uint64`. -/
def u64 (x : Int) : Nat := (x % 18446744073709551616).toNat

/-- Conversion of an integer to `int64` (two's complement). -/
def i64 (x : Int) : Int :=
  (x + 9223372036854775808) % 18446744073709551616 - 9223372036854775808

/-- The call `memcpy(dst + d, src + s, n)`. -/
def memcpy (dst : Mem) (d : Nat) (src : Mem) (s : Nat) (n : Nat) : Mem :=
  fun i => if d ≤ i ∧ i < d + n then src (s + (i - d)) else dst i

/-- The call `memset(dst, c, n)`. -/
def memset (dst : Mem) (c : uint8) (n : Nat) : Mem :=
  fun i => if i < n then c else dst i

/-- How a call that contains an `assert` ends. -/
inductive Outcome (α : Type) where
  | returned (v : α)
  | assert_failed
  | out_of_fuel
  deriving DecidableEq, Repr

/-! ## External collaborators -/

/-- Modelled from the spec: the table of contents (`TOC`, declared outside this
file): first and last track number and per-track metadata (starting LBA, type). -/
structure TOC where
  first_track : Nat
  last_track : Nat
  tracks : List (Nat × Nat)
  deriving DecidableEq, Repr

/-- Result of `CDAccess::Read_Raw_Sector(buf, lba)`. -/
structure RawRead (β : Type) where
  cda : β
  buf : Mem
  ok : Bool

/-- Result of `CDAccess::Eject(eject_status)`. -/
structure EjectDone (β : Type) where
  cda : β
  ok : Bool

/-- Result of `CDAccess::Read_TOC(&toc)`. -/
structure TocRead (β : Type) where
  cda : β
  toc : TOC
  ok : Bool

/-- The disc-access backend, with states `β`. Each operation gets the backend
state and the current content of its out-parameter, and gives the new state, the
content written, and `ok = false` when it throws. -/
structure CDAccess (β : Type) where
  Read_Raw_Sector : β → Mem → Nat → RawRead β
  Eject : β → Bool → EjectDone β
  Read_TOC : β → TOC → TocRead β

/-- Result of `edc_lec_check_and_correct(buf, xa)`: the buffer as the codec
leaves it and its verdict. -/
structure CodecDone where
  buf : Mem
  ok : Bool

/-- What the file is run against: the backend, the codec, and the indeterminate
content of an uninitialised local buffer. -/
structure Env (β : Type) where
  cda : CDAccess β
  edc_lec_check_and_correct : Mem → Bool → CodecDone
  uninit : Mem

/-- One call made to the backend. -/
inductive BackendCall where
  | Read_Raw_Sector (lba : Nat)
  | Eject (eject_status : Bool)
  | Read_TOC
  deriving DecidableEq, Repr

/-! ## `CDIF` and `CDIF_ST` -/

/-- The fields of a `CDIF_ST` object (those of `CDIF` included). -/
structure CDIF_ST (β : Type) where
  UnrecoverableError : Bool
  is_phys_cache : Bool
  DiscEjected : Bool
  disc_toc : TOC
  disc_cdaccess : β

/-- Result of `CDIF::ValidateRawSector`, with the flags of the codec calls made. -/
structure ValidateResult where
  buf : Mem
  ret : Bool
  codec_calls : List Bool

/-- `bool CDIF::ValidateRawSector(uint8* buf)`. -/
def CDIF.ValidateRawSector {β : Type} (env : Env β) (buf : Mem) : ValidateResult :=
  let mode : Nat := (buf (12 + 3)).val
  if mode ≠ 1 ∧ mode ≠ 2 then
    ⟨buf, false, []⟩
  else
    let c := env.edc_lec_check_and_correct buf (decide (mode = 2))
    if !c.ok then
      ⟨c.buf, false, [decide (mode = 2)]⟩
    else
      ⟨c.buf, true, [decide (mode = 2)]⟩

/-- Result of `CDIF_ST::ReadRawSector`. -/
structure ReadRawSectorResult (β : Type) where
  self : CDIF_ST β
  buf : Mem
  ret : Bool
  trace : List BackendCall

/-- `bool CDIF_ST::ReadRawSector(uint8* buf, uint32 lba)`. -/
def CDIF_ST.ReadRawSector {β : Type} (env : Env β) (self : CDIF_ST β) (buf : Mem)
    (lba : Nat) : ReadRawSectorResult β :=
  if self.UnrecoverableError then
    ⟨self, memset buf 0 (2352 + 96), false, []⟩
  else
    let r := env.cda.Read_Raw_Sector self.disc_cdaccess buf lba
    let self1 := { self with disc_cdaccess := r.cda }
    if !r.ok then
      ⟨self1, memset r.buf 0 (2352 + 96), false, [BackendCall.Read_Raw_Sector lba]⟩
    else
      ⟨self1, r.buf, true, [BackendCall.Read_Raw_Sector lba]⟩

/-- `void CDIF_ST::HintReadSector(uint32 lba)`: an empty body. -/
def CDIF_ST.HintReadSector {β : Type} (_env : Env β) (self : CDIF_ST β) (_lba : Nat) :
    CDIF_ST β :=
  self

/-- Result of `CDIF::ReadSector`. -/
structure ReadSectorResult (β : Type) where
  self : CDIF_ST β
  pBuf : Mem
  ret : Nat
  trace : List BackendCall

/-- The `while (nSectors--)` loop of `CDIF::ReadSector`; `off` is the distance
`pBuf` has advanced from the caller's pointer, `ret` the local of that name, and
`tmpbuf0` what the local array `tmpbuf` holds when the iteration starts: the array
is not initialised, so from the second iteration on it holds what the iteration
before left in it. -/
def CDIF.ReadSector.loop {β : Type} (env : Env β) :
    Nat → CDIF_ST β → Mem → Nat → Nat → Nat → List BackendCall → Mem → ReadSectorResult β
  | 0, self, pBuf, _off, _lba, ret, trace, _tmpbuf0 => ⟨self, pBuf, ret, trace⟩
  | nSectors + 1, self, pBuf, off, lba, ret, trace, tmpbuf0 =>
    let r := CDIF_ST.ReadRawSector env self tmpbuf0 lba
    if !r.ret then
      ⟨r.self, pBuf, 0, trace ++ r.trace⟩
    else
      let v := CDIF.ValidateRawSector env r.buf
      if !v.ret then
        ⟨r.self, pBuf, 0, trace ++ r.trace⟩
      else
        let tmpbuf := v.buf
        let mode : Nat := (tmpbuf (12 + 3)).val
        let ret1 := if ret = 0 then mode else ret
        if mode = 1 then
          CDIF.ReadSector.loop env nSectors r.self (memcpy pBuf off tmpbuf (12 + 4) 2048)
            (off + 2048) (u32 (lba + 1)) ret1 (trace ++ r.trace) tmpbuf
        else if mode = 2 then
          CDIF.ReadSector.loop env nSectors r.self (memcpy pBuf off tmpbuf (12 + 4 + 8) 2048)
            (off + 2048) (u32 (lba + 1)) ret1 (trace ++ r.trace) tmpbuf
        else
          ⟨r.self, pBuf, 0, trace ++ r.trace⟩

/-- `int CDIF::ReadSector(uint8* pBuf, uint32 lba, uint32 nSectors)`; in the first
iteration `tmpbuf` holds the indeterminate content `env.uninit`. -/
def CDIF.ReadSector {β : Type} (env : Env β) (self : CDIF_ST β) (pBuf : Mem)
    (lba nSectors : Nat) : ReadSectorResult β :=
  if self.UnrecoverableError then
    ⟨self, pBuf, 0, []⟩
  else
    CDIF.ReadSector.loop env nSectors self pBuf 0 lba 0 [] env.uninit

/-- Result of `CDIF_ST::Eject`. -/
structure EjectResult (β : Type) where
  self : CDIF_ST β
  ret : Outcome Bool
  trace : List BackendCall

/-- The condition both `assert`s on the table of contents test. -/
def TOC.valid (toc : TOC) : Bool :=
  decide (toc.first_track > 0) && decide (toc.last_track < 100) &&
    decide (toc.first_track ≤ toc.last_track)

/-- `bool CDIF_ST::Eject(bool eject_status)`. -/
def CDIF_ST.Eject {β : Type} (env : Env β) (self : CDIF_ST β) (eject_status : Bool) :
    EjectResult β :=
  if self.UnrecoverableError then
    ⟨self, Outcome.returned false, []⟩
  else
    let old_de := self.DiscEjected
    let self1 := { self with DiscEjected := eject_status }
    if old_de ≠ self1.DiscEjected then
      let e := env.cda.Eject self1.disc_cdaccess eject_status
      let self2 := { self1 with disc_cdaccess := e.cda }
      if !e.ok then
        ⟨self2, Outcome.returned false, [BackendCall.Eject eject_status]⟩
      else if !eject_status then
        let t := env.cda.Read_TOC self2.disc_cdaccess self2.disc_toc
        let self3 := { self2 with disc_cdaccess := t.cda, disc_toc := t.toc }
        if !t.ok then
          ⟨self3, Outcome.returned false,
            [BackendCall.Eject eject_status, BackendCall.Read_TOC]⟩
        else if self3.disc_toc.valid then
          ⟨self3, Outcome.returned true,
            [BackendCall.Eject eject_status, BackendCall.Read_TOC]⟩
        else
          ⟨self3, Outcome.assert_failed,
            [BackendCall.Eject eject_status, BackendCall.Read_TOC]⟩
      else
        ⟨self2, Outcome.returned true, [BackendCall.Eject eject_status]⟩
    else
      ⟨self1, Outcome.returned true, []⟩

/-! ## Sequences of calls on the disc interface -/

/-- A call of one of the four operations of the disc interface. -/
inductive Call where
  | ReadSector (pBuf : Mem) (lba nSectors : Nat)
  | ReadRawSector (buf : Mem) (lba : Nat)
  | HintReadSector (lba : Nat)
  | Eject (eject_status : Bool)

/-- What a call gave back. -/
inductive CallDone where
  | ReadSector (pBuf : Mem) (ret : Nat)
  | ReadRawSector (buf : Mem) (ret : Bool)
  | HintReadSector
  | Eject (ret : Outcome Bool)

/-- The interface after a call, what the call gave back, the backend calls it made. -/
structure Step (β : Type) where
  self : CDIF_ST β
  done : CallDone
  trace : List BackendCall

/-- Performs one call. -/
def CDIF_ST.call {β : Type} (env : Env β) (self : CDIF_ST β) : Call → Step β
  | Call.ReadSector pBuf lba nSectors =>
    let r := CDIF.ReadSector env self pBuf lba nSectors
    ⟨r.self, CallDone.ReadSector r.pBuf r.ret, r.trace⟩
  | Call.ReadRawSector buf lba =>
    let r := CDIF_ST.ReadRawSector env self buf lba
    ⟨r.self, CallDone.ReadRawSector r.buf r.ret, r.trace⟩
  | Call.HintReadSector lba =>
    ⟨CDIF_ST.HintReadSector env self lba, CallDone.HintReadSector, []⟩
  | Call.Eject eject_status =>
    let r := CDIF_ST.Eject env self eject_status
    ⟨r.self, CallDone.Eject r.ret, r.trace⟩

/-- Performs a sequence of calls, one after the other, and lists the steps. -/
def CDIF_ST.calls {β : Type} (env : Env β) : CDIF_ST β → List Call → List (Step β)
  | _, [] => []
  | self, c :: cs =>
    let st := CDIF_ST.call env self c
    st :: CDIF_ST.calls env st.self cs

/-! ## `CDIF_Stream_Thing` -/

/-- The fields of a `CDIF_Stream_Thing` other than the pointer `cdintf`; the
interface `cdintf` points to is passed to each operation and given back by it. -/
structure CDIF_Stream_Thing where
  start_lba : Nat
  sector_count : Nat
  position : Int
  deriving DecidableEq, Repr

/-- State after the `for` loop of `CDIF_Stream_Thing::read`. -/
structure ReadLoopResult (β : Type) where
  cdintf : CDIF_ST β
  data : Mem
  ret : Outcome Unit
  trace : List BackendCall

/-- The `for` loop of `CDIF_Stream_Thing::read`, run for at most `fuel` iterations.
`rp & 2047` and `rp & ~2047` are taken on `uint64`. -/
def CDIF_Stream_Thing.read.loop {β : Type} (env : Env β) (self : CDIF_Stream_Thing)
    (count : Nat) : Nat → CDIF_ST β → Mem → Nat → List BackendCall → ReadLoopResult β
  | 0, cdintf, data, rp, trace =>
    if rp < u64 (self.position + (count : Int)) then
      ⟨cdintf, data, Outcome.out_of_fuel, trace⟩
    else
      ⟨cdintf, data, Outcome.returned (), trace⟩
  | fuel + 1, cdintf, data, rp, trace =>
    if rp < u64 (self.position + (count : Int)) then
      let r := CDIF.ReadSector env cdintf env.uninit (u32 (self.start_lba + rp / 2048)) 1
      if r.ret = 0 then
        ⟨r.self, data, Outcome.assert_failed, trace ++ r.trace⟩
      else
        let buf := r.pBuf
        let data1 := memcpy data (u64 ((rp : Int) - self.position)) buf (rp &&& 2047)
          (min (2048 - (rp &&& 2047)) (u64 ((count : Int) - (u64 ((rp : Int) - self.position) : Nat))))
        CDIF_Stream_Thing.read.loop env self count fuel r.self data1
          (u64 (((rp &&& 18446744073709549568 : Nat) : Int) + 2048)) (trace ++ r.trace)
    else
      ⟨cdintf, data, Outcome.returned (), trace⟩

/-- Result of `CDIF_Stream_Thing::read`. -/
structure StreamReadResult (β : Type) where
  self : CDIF_Stream_Thing
  cdintf : CDIF_ST β
  data : Mem
  ret : Outcome Nat
  trace : List BackendCall

/-- `uint64 CDIF_Stream_Thing::read(void* data, uint64 count, bool error_on_eos)`.
The loop gets `count / 2048 + 2` iterations, one more than the number of sectors
`count` bytes can touch. -/
def CDIF_Stream_Thing.read {β : Type} (env : Env β) (self : CDIF_Stream_Thing)
    (cdintf : CDIF_ST β) (data : Mem) (count : Nat) (error_on_eos : Bool) :
    StreamReadResult β :=
  let remaining := u64 ((u64 ((self.sector_count : Int) * 2048) : Nat) - self.position)
  if count > remaining ∧ error_on_eos = true then
    ⟨self, cdintf, data, Outcome.assert_failed, []⟩
  else
    let count1 := if count > remaining then remaining else count
    if count1 = 0 then
      ⟨self, cdintf, data, Outcome.returned 0, []⟩
    else
      let r := CDIF_Stream_Thing.read.loop env self count1 (count1 / 2048 + 2) cdintf data
        (u64 self.position) []
      match r.ret with
      | Outcome.returned _ =>
        ⟨{ self with position := i64 (self.position + (count1 : Int)) }, r.cdintf, r.data,
          Outcome.returned count1, r.trace⟩
      | Outcome.assert_failed => ⟨self, r.cdintf, r.data, Outcome.assert_failed, r.trace⟩
      | Outcome.out_of_fuel => ⟨self, r.cdintf, r.data, Outcome.out_of_fuel, r.trace⟩

/-- The value of `SEEK_SET` in `<stdio.h>`. -/
def SEEK_SET : Int := 0

/-- The value of `SEEK_CUR` in `<stdio.h>`. -/
def SEEK_CUR : Int := 1

/-- The value of `SEEK_END` in `<stdio.h>`. -/
def SEEK_END : Int := 2

/-- Result of `CDIF_Stream_Thing::seek`. -/
structure SeekResult where
  self : CDIF_Stream_Thing
  ret : Outcome Unit
  trace : List BackendCall

/-- The `assert` on `new_position` and the assignment that end `seek`. -/
def CDIF_Stream_Thing.seek.finish (self : CDIF_Stream_Thing) (new_position : Int) :
    SeekResult :=
  if new_position ≥ 0 ∧ new_position ≤ i64 ((self.sector_count : Int) * 2048) then
    ⟨{ self with position := new_position }, Outcome.returned (), []⟩
  else
    ⟨self, Outcome.assert_failed, []⟩

/-- `void CDIF_Stream_Thing::seek(int64 offset, int whence)`; the additions are
taken on `int64`, wrapping. -/
def CDIF_Stream_Thing.seek (self : CDIF_Stream_Thing) (offset : Int) (whence : Int) :
    SeekResult :=
  if whence = SEEK_SET then
    CDIF_Stream_Thing.seek.finish self offset
  else if whence = SEEK_CUR then
    CDIF_Stream_Thing.seek.finish self (i64 (self.position + offset))
  else if whence = SEEK_END then
    CDIF_Stream_Thing.seek.finish self (i64 (i64 ((self.sector_count : Int) * 2048) + offset))
  else
    ⟨self, Outcome.assert_failed, []⟩

/-- `int64 CDIF_Stream_Thing::tell(void)`. -/
def CDIF_Stream_Thing.tell (self : CDIF_Stream_Thing) : Int :=
  self.position

/-- `int64 CDIF_Stream_Thing::size(void)`: the product is taken on `uint32`. -/
def CDIF_Stream_Thing.size (self : CDIF_Stream_Thing) : Int :=
  (u32 (self.sector_count * 2048) : Nat)

/-! ## The run of `CDIF::ReadSector`, sector by sector -/

/-- The backend state and the content of `tmpbuf` with which `CDIF::ReadSector`,
started at `lba` with the backend in state `b` and `tmpbuf` holding `t`, reads its
sector number `i`, the sectors before it having been read, validated and copied:
the state the raw read before it left, and the buffer as the validation before it
left it. -/
def runAt {β : Type} (env : Env β) (b : β) (t : Mem) (lba : Nat) : Nat → β × Mem
  | 0 => (b, t)
  | i + 1 =>
    ((env.cda.Read_Raw_Sector (runAt env b t lba i).1 (runAt env b t lba i).2
        (u32 (lba + i))).cda,
      (CDIF.ValidateRawSector env
        (env.cda.Read_Raw_Sector (runAt env b t lba i).1 (runAt env b t lba i).2
          (u32 (lba + i))).buf).buf)

/-- The backend state in which sector number `i` of that run is read. -/
def backendAt {β : Type} (env : Env β) (b : β) (t : Mem) (lba i : Nat) : β :=
  (runAt env b t lba i).1

/-- What `tmpbuf` holds when sector number `i` of that run is read. -/
def tmpbufAt {β : Type} (env : Env β) (b : β) (t : Mem) (lba i : Nat) : Mem :=
  (runAt env b t lba i).2

/-- What the backend does for sector number `i` of that run. -/
def rawAt {β : Type} (env : Env β) (b : β) (t : Mem) (lba i : Nat) : RawRead β :=
  env.cda.Read_Raw_Sector (backendAt env b t lba i) (tmpbufAt env b t lba i) (u32 (lba + i))

/-- What the codec does with the raw sector number `i` of that run, called with
the flag `raw[15] == 2`. -/
def correctedAt {β : Type} (env : Env β) (b : β) (t : Mem) (lba i : Nat) : CodecDone :=
  env.edc_lec_check_and_correct (rawAt env b t lba i).buf
    (decide (((rawAt env b t lba i).buf 15).val = 2))

/-- Sector number `i` of the run is read without an exception, has mode byte 1
or 2, and the codec accepts it. -/
def SectorValid {β : Type} (env : Env β) (b : β) (t : Mem) (lba i : Nat) : Prop :=
  (rawAt env b t lba i).ok = true ∧
    (((rawAt env b t lba i).buf 15).val = 1 ∨ ((rawAt env b t lba i).buf 15).val = 2) ∧
    (correctedAt env b t lba i).ok = true

/-! ## Example environments -/

/-- A raw Mode 1 sector: mode byte 1, every other byte `0xAA`. -/
def demoSector : Mem := fun i => if i = 15 then 1 else 170

/-- A backend without state: every raw read gives `demoSector`, nothing throws,
and the table of contents has tracks 1 to 2. -/
def demoBackend : CDAccess Unit where
  Read_Raw_Sector := fun _ _ _ => ⟨(), demoSector, true⟩
  Eject := fun _ _ => ⟨(), true⟩
  Read_TOC := fun _ _ => ⟨(), ⟨1, 2, []⟩, true⟩

/-- The backend above with a codec that accepts every sector as it is. -/
def demoEnv : Env Unit where
  cda := demoBackend
  edc_lec_check_and_correct := fun buf _ => ⟨buf, true⟩
  uninit := fun _ => 0

/-- The backend above with a codec that repairs byte 16 of the sector (to `0xBB`)
and accepts it. -/
def repairEnv : Env Unit where
  cda := demoBackend
  edc_lec_check_and_correct := fun buf _ => ⟨fun i => if i = 16 then 187 else buf i, true⟩
  uninit := fun _ => 0

/-- The backend above with a codec that clears the mode byte of the sector
and accepts it. -/
def modeClearingEnv : Env Unit where
  cda := demoBackend
  edc_lec_check_and_correct := fun buf _ => ⟨fun i => if i = 15 then 0 else buf i, true⟩
  uninit := fun _ => 0

/-- An interface in its state after construction, on `demoBackend`. -/
def demoCDIF : CDIF_ST Unit where
  UnrecoverableError := false
  is_phys_cache := false
  DiscEjected := false
  disc_toc := ⟨1, 2, []⟩
  disc_cdaccess := ()

/-- A buffer of zero bytes. -/
def zeroMem : Mem := fun _ => 0

/-- A backend whose table of contents claims a first track 0; nothing throws. -/
def badTocBackend : CDAccess Unit where
  Read_Raw_Sector := fun _ _ _ => ⟨(), demoSector, true⟩
  Eject := fun _ _ => ⟨(), true⟩
  Read_TOC := fun _ _ => ⟨(), ⟨0, 2, []⟩, true⟩

/-- The backend above with a codec that accepts every sector as it is. -/
def badTocEnv : Env Unit where
  cda := badTocBackend
  edc_lec_check_and_correct := fun buf _ => ⟨buf, true⟩
  uninit := fun _ => 0

/-- The interface `demoCDIF` with `UnrecoverableError` set. -/
def brokenCDIF : CDIF_ST Unit :=
  { demoCDIF with UnrecoverableError := true }

/-! ## Properties of steps -/

/-- The step `st` answers the call `c` the way an interface with
`UnrecoverableError` set does: no backend call, the interface unchanged,
`ReadSector` returns 0 and leaves the output alone, `ReadRawSector` returns false
with a zero-filled buffer, `Eject` returns false. -/
def Refused {β : Type} (self : CDIF_ST β) (c : Call) (st : Step β) : Prop :=
  st.trace = [] ∧ st.self = self ∧
    match c with
    | Call.ReadSector pBuf _ _ => st.done = CallDone.ReadSector pBuf 0
    | Call.ReadRawSector buf _ => st.done = CallDone.ReadRawSector (memset buf 0 2448) false
    | Call.HintReadSector _ => st.done = CallDone.HintReadSector
    | Call.Eject _ => st.done = CallDone.Eject (Outcome.returned false)

/-! ## Reference definitions for the stream -/

/-- The candidate position of a seek computed exactly, on unbounded integers:
`offset`, `position + offset` or `length + offset`. -/
def exactCandidate (self : CDIF_Stream_Thing) (offset whence : Int) : Int :=
  if whence = SEEK_SET then offset
  else if whence = SEEK_CUR then self.position + offset
  else (self.sector_count : Int) * 2048 + offset

/-- The sector at `lba` decodes to `sec`: whatever the state of an interface with
`UnrecoverableError` unset and whatever the output buffer holds, `CDIF::ReadSector`
for that one sector succeeds and leaves `sec 0`, ..., `sec 2047` in the first 2048
bytes of the output. -/
def Decodes {β : Type} (env : Env β) (lba : Nat) (sec : Mem) : Prop :=
  ∀ (cdintf : CDIF_ST β) (pBuf : Mem), cdintf.UnrecoverableError = false →
    (CDIF.ReadSector env cdintf pBuf lba 1).ret ≠ 0 ∧
      ∀ k, k < 2048 → (CDIF.ReadSector env cdintf pBuf lba 1).pBuf k = sec k

/-- The 2048-byte decoded user data of the sectors `L`, `L + 1`, ..., `L + N - 1`
(sector numbers taken on `uint32`), one after the other; `sec lba` is the decoded
user data of the sector at `lba`. -/
def decodedBytes (sec : Nat → Mem) (L : Nat) : Nat → List uint8
  | 0 => []
  | N + 1 => decodedBytes sec L N ++ (List.range 2048).map (sec (u32 (L + N)))

/-! ## Construction -/

/-- How the constructor of `CDIF_ST` ends: with an object, with the exception
of `Read_TOC` (which it does not catch), or with a failed assertion. -/
inductive Construction (β : Type) where
  | constructed (self : CDIF_ST β)
  | threw
  | assert_failed

/-- Result of the constructor of `CDIF_ST`. -/
structure ConstructResult (β : Type) where
  ret : Construction β
  trace : List BackendCall

/-- The constructor `CDIF_ST::CDIF_ST(CDAccess* cda)`; `toc0` is the content of the member
`disc_toc` before `Read_TOC` writes to it. -/
def CDIF_ST.ctor {β : Type} (env : Env β) (cda : β) (toc0 : TOC) : ConstructResult β :=
  let t := env.cda.Read_TOC cda toc0
  let self : CDIF_ST β :=
    { UnrecoverableError := false, is_phys_cache := false, DiscEjected := false,
      disc_toc := t.toc, disc_cdaccess := t.cda }
  if !t.ok then
    ⟨Construction.threw, [BackendCall.Read_TOC]⟩
  else if self.disc_toc.valid then
    ⟨Construction.constructed self, [BackendCall.Read_TOC]⟩
  else
    ⟨Construction.assert_failed, [BackendCall.Read_TOC]⟩

/-- The constructor `CDIF_Stream_Thing::CDIF_Stream_Thing(cdintf_arg, start_lba_arg,
sector_count_arg)`: the initialiser list names `cdintf`, `start_lba` and
`sector_count` and the body is empty, so `position` keeps the indeterminate value
`position0` that the storage of the new object holds. -/
def CDIF_Stream_Thing.ctor (start_lba_arg sector_count_arg : Nat)
    (position0 : Int) : CDIF_Stream_Thing :=
  { start_lba := start_lba_arg, sector_count := sector_count_arg, position := position0 }

/-- `Stream* CDIF::MakeStream(uint32 lba, uint32 sector_count)`. -/
def CDIF.MakeStream (lba sector_count : Nat) (position0 : Int) : CDIF_Stream_Thing :=
  CDIF_Stream_Thing.ctor lba sector_count position0

/-! ## Sequences of calls on a stream -/

/-- A call of `seek`, `read`, `tell` or `size`. -/
inductive StreamCall where
  | seek (offset whence : Int)
  | read (data : Mem) (count : Nat) (error_on_eos : Bool)
  | tell
  | size

/-- What a call on a stream gave back. -/
inductive StreamDone where
  | seek (ret : Outcome Unit)
  | read (data : Mem) (ret : Outcome Nat)
  | tell (ret : Int)
  | size (ret : Int)

/-- The stream and the interface after a call, and what the call gave back. -/
structure StreamStep (β : Type) where
  self : CDIF_Stream_Thing
  cdintf : CDIF_ST β
  done : StreamDone

/-- Performs one call on a stream. -/
def CDIF_Stream_Thing.call {β : Type} (env : Env β) (self : CDIF_Stream_Thing)
    (cdintf : CDIF_ST β) : StreamCall → StreamStep β
  | StreamCall.seek offset whence =>
    let r := CDIF_Stream_Thing.seek self offset whence
    ⟨r.self, cdintf, StreamDone.seek r.ret⟩
  | StreamCall.read data count error_on_eos =>
    let r := CDIF_Stream_Thing.read env self cdintf data count error_on_eos
    ⟨r.self, r.cdintf, StreamDone.read r.data r.ret⟩
  | StreamCall.tell => ⟨self, cdintf, StreamDone.tell (CDIF_Stream_Thing.tell self)⟩
  | StreamCall.size => ⟨self, cdintf, StreamDone.size (CDIF_Stream_Thing.size self)⟩

/-- Performs a sequence of calls on a stream, one after the other. -/
def CDIF_Stream_Thing.calls {β : Type} (env : Env β) :
    CDIF_Stream_Thing → CDIF_ST β → List StreamCall → List (StreamStep β)
  | _, _, [] => []
  | self, cdintf, c :: cs =>
    let st := CDIF_Stream_Thing.call env self cdintf c
    st :: CDIF_Stream_Thing.calls env st.self st.cdintf cs

/-! ## `CDIF_Message` and `CDIF_Queue` -/

/-- The enumerator `CDIF_MSG_DONE`. -/
def CDIF_MSG_DONE : Nat := 0

/-- The enumerator `CDIF_MSG_INFO`. -/
def CDIF_MSG_INFO : Nat := 1

/-- The enumerator `CDIF_MSG_FATAL_ERROR`. -/
def CDIF_MSG_FATAL_ERROR : Nat := 2

/-- The enumerator `CDIF_MSG_DIEDIEDIE`. -/
def CDIF_MSG_DIEDIEDIE : Nat := 3

/-- The enumerator `CDIF_MSG_READ_SECTOR`. -/
def CDIF_MSG_READ_SECTOR : Nat := 4

/-- The enumerator `CDIF_MSG_EJECT`. -/
def CDIF_MSG_EJECT : Nat := 5

/-- The fields of a `CDIF_Message`; `parg` is the pointer value. -/
structure CDIF_Message where
  message : Nat
  args : Nat × Nat × Nat × Nat
  parg : Nat
  str_message : String
  deriving DecidableEq, Repr

/-- The field of a `CDIF_Queue`: the `std::queue`, front first. -/
structure CDIF_Queue where
  ze_queue : List CDIF_Message
  deriving DecidableEq, Repr

/-- Result of `CDIF_Queue::Read`: the queue, the caller's message object, and how
the call ended. -/
structure QueueReadResult where
  self : CDIF_Queue
  message : CDIF_Message
  ret : Outcome Bool
  deriving DecidableEq, Repr

/-- `bool CDIF_Queue::Read(CDIF_Message* message, bool blocking)`. -/
def CDIF_Queue.Read (self : CDIF_Queue) (message : CDIF_Message) (_blocking : Bool) :
    QueueReadResult :=
  let ret : Bool := !(self.ze_queue.length == 0)
  let message1 := if ret then self.ze_queue.headD message else message
  let self1 : CDIF_Queue := if ret then ⟨self.ze_queue.tail⟩ else self
  if !ret || message1.message ≠ CDIF_MSG_FATAL_ERROR then
    ⟨self1, message1, Outcome.returned ret⟩
  else
    ⟨self1, message1, Outcome.assert_failed⟩

/-- `void CDIF_Queue::Write(const CDIF_Message &message)`. -/
def CDIF_Queue.Write (self : CDIF_Queue) (message : CDIF_Message) : CDIF_Queue :=
  ⟨self.ze_queue ++ [message]⟩

/-- Calls `Read` once for every flag of the list, each call on the queue and the
message object the call before left; gives the results and the queue at the end. -/
def CDIF_Queue.reads : CDIF_Queue → CDIF_Message → List Bool →
    List QueueReadResult × CDIF_Queue
  | self, _, [] => ([], self)
  | self, message, blocking :: rest =>
    let r := CDIF_Queue.Read self message blocking
    let rs := CDIF_Queue.reads r.self r.message rest
    (r :: rs.1, rs.2)

/-! ## More example environments -/

/-- A backend whose raw read writes `0xFF` to the first 100 bytes of the buffer and
then throws; `Eject` and `Read_TOC` as in `demoBackend`. -/
def throwingBackend : CDAccess Unit where
  Read_Raw_Sector := fun _ buf _ => ⟨(), fun i => if i < 100 then 255 else buf i, false⟩
  Eject := fun _ _ => ⟨(), true⟩
  Read_TOC := fun _ _ => ⟨(), ⟨1, 2, []⟩, true⟩

/-- The backend above with a codec that accepts every sector as it is. -/
def throwingEnv : Env Unit where
  cda := throwingBackend
  edc_lec_check_and_correct := fun buf _ => ⟨buf, true⟩
  uninit := fun _ => 0

/-- A backend that counts its `Read_TOC` calls: the first one writes a table with
the tracks 1 to 2, every later one sets the first track of the table to 0 and then
throws; raw reads and `Eject` as in `demoBackend`. -/
def flakyTocBackend : CDAccess Nat where
  Read_Raw_Sector := fun b _ _ => ⟨b, demoSector, true⟩
  Eject := fun b _ => ⟨b, true⟩
  Read_TOC := fun b toc =>
    if b = 0 then ⟨1, ⟨1, 2, []⟩, true⟩ else ⟨b + 1, { toc with first_track := 0 }, false⟩

/-- The backend above with a codec that accepts every sector as it is. -/
def flakyTocEnv : Env Nat where
  cda := flakyTocBackend
  edc_lec_check_and_correct := fun buf _ => ⟨buf, true⟩
  uninit := fun _ => 0

/-- The interface that the constructor builds on `flakyTocBackend`. -/
def flakyCDIF : CDIF_ST Nat where
  UnrecoverableError := false
  is_phys_cache := false
  DiscEjected := false
  disc_toc := ⟨1, 2, []⟩
  disc_cdaccess := 1

/-- A backend whose raw read throws for every sector but sector 0, with a codec that
clears the mode byte and accepts the sector. -/
def modeClearingThenThrowingEnv : Env Unit where
  cda :=
    { Read_Raw_Sector := fun _ _ lba => ⟨(), demoSector, decide (lba = 0)⟩
      Eject := fun _ _ => ⟨(), true⟩
      Read_TOC := fun _ _ => ⟨(), ⟨1, 2, []⟩, true⟩ }
  edc_lec_check_and_correct := fun buf _ => ⟨fun i => if i = 15 then 0 else buf i, true⟩
  uninit := fun _ => 0

/-- A backend whose raw read throws for every sector but sector 0, with a codec that
accepts every sector as it is. -/
def secondSectorThrowingEnv : Env Unit where
  cda :=
    { Read_Raw_Sector := fun _ _ lba => ⟨(), demoSector, decide (lba = 0)⟩
      Eject := fun _ _ => ⟨(), true⟩
      Read_TOC := fun _ _ => ⟨(), ⟨1, 2, []⟩, true⟩ }
  edc_lec_check_and_correct := fun buf _ => ⟨buf, true⟩
  uninit := fun _ => 0

/-- A backend whose raw read writes `demoSector` for sector 0 and, for every other
sector, returns without writing to the buffer; nothing throws. The codec accepts
every sector as it is. -/
def lazyEnv : Env Unit where
  cda :=
    { Read_Raw_Sector := fun _ buf lba => ⟨(), if lba = 0 then demoSector else buf, true⟩
      Eject := fun _ _ => ⟨(), true⟩
      Read_TOC := fun _ _ => ⟨(), ⟨1, 2, []⟩, true⟩ }
  edc_lec_check_and_correct := fun buf _ => ⟨buf, true⟩
  uninit := fun _ => 0

/-- A message `CDIF_MSG_READ_SECTOR` for sector 7. -/
def demoMessage1 : CDIF_Message := ⟨CDIF_MSG_READ_SECTOR, (7, 0, 0, 0), 0, ""⟩

/-- A message `CDIF_MSG_INFO` with a text. -/
def demoMessage2 : CDIF_Message := ⟨CDIF_MSG_INFO, (0, 0, 0, 0), 0, "disc"⟩

/-! # Theorems -/

/-! ## Machine integers -/

theorem u32_lt (n : Nat) : u32 n < 4294967296 := by
  unfold u32; omega

theorem u32_of_lt {n : Nat} (h : n < 4294967296) : u32 n = n := by
  unfold u32; omega

theorem u32_succ_add (lba i : Nat) : u32 (u32 (lba + 1) + i) = u32 (lba + (i + 1)) := by
  unfold u32; omega

/-! ## `CDIF::ValidateRawSector` and `CDIF_ST::ReadRawSector` -/

theorem ValidateRawSector_of_valid {β : Type} (env : Env β) (buf : Mem)
    (hmode : (buf 15).val = 1 ∨ (buf 15).val = 2)
    (hok : (env.edc_lec_check_and_correct buf (decide ((buf 15).val = 2))).ok = true) :
    CDIF.ValidateRawSector env buf =
      ⟨(env.edc_lec_check_and_correct buf (decide ((buf 15).val = 2))).buf, true,
        [decide ((buf 15).val = 2)]⟩ := by
  unfold CDIF.ValidateRawSector
  have h : ¬ ((buf 15).val ≠ 1 ∧ (buf 15).val ≠ 2) := by omega
  simp [h, hok]

theorem ReadRawSector_of_ok {β : Type} (env : Env β) (self : CDIF_ST β) (buf : Mem)
    (lba : Nat) (hU : self.UnrecoverableError = false)
    (hok : (env.cda.Read_Raw_Sector self.disc_cdaccess buf lba).ok = true) :
    CDIF_ST.ReadRawSector env self buf lba =
      ⟨{ self with disc_cdaccess := (env.cda.Read_Raw_Sector self.disc_cdaccess buf lba).cda },
        (env.cda.Read_Raw_Sector self.disc_cdaccess buf lba).buf, true,
        [BackendCall.Read_Raw_Sector lba]⟩ := by
  unfold CDIF_ST.ReadRawSector
  simp [hU, hok]

/-! ## The loop of `CDIF::ReadSector` -/

theorem runAt_succ_left {β : Type} (env : Env β) (b : β) (t : Mem) (lba : Nat)
    (hlba : lba < 4294967296) (i : Nat) :
    runAt env b t lba (i + 1) =
      runAt env (env.cda.Read_Raw_Sector b t lba).cda
        (CDIF.ValidateRawSector env (env.cda.Read_Raw_Sector b t lba).buf).buf
        (u32 (lba + 1)) i := by
  induction i with
  | zero => simp [runAt, u32_of_lt hlba]
  | succ i ih =>
    rw [runAt, ih]
    conv_rhs => rw [runAt]
    rw [u32_succ_add]

theorem backendAt_succ_left {β : Type} (env : Env β) (b : β) (t : Mem) (lba : Nat)
    (hlba : lba < 4294967296) (i : Nat) :
    backendAt env b t lba (i + 1) =
      backendAt env (env.cda.Read_Raw_Sector b t lba).cda
        (CDIF.ValidateRawSector env (env.cda.Read_Raw_Sector b t lba).buf).buf
        (u32 (lba + 1)) i := by
  unfold backendAt
  rw [runAt_succ_left env b t lba hlba]

theorem rawAt_succ_left {β : Type} (env : Env β) (b : β) (t : Mem) (lba : Nat)
    (hlba : lba < 4294967296) (i : Nat) :
    rawAt env b t lba (i + 1) =
      rawAt env (env.cda.Read_Raw_Sector b t lba).cda
        (CDIF.ValidateRawSector env (env.cda.Read_Raw_Sector b t lba).buf).buf
        (u32 (lba + 1)) i := by
  unfold rawAt backendAt tmpbufAt
  rw [runAt_succ_left env b t lba hlba, u32_succ_add]

theorem correctedAt_succ_left {β : Type} (env : Env β) (b : β) (t : Mem) (lba : Nat)
    (hlba : lba < 4294967296) (i : Nat) :
    correctedAt env b t lba (i + 1) =
      correctedAt env (env.cda.Read_Raw_Sector b t lba).cda
        (CDIF.ValidateRawSector env (env.cda.Read_Raw_Sector b t lba).buf).buf
        (u32 (lba + 1)) i := by
  unfold correctedAt
  rw [rawAt_succ_left env b t lba hlba]

theorem rawAt_zero {β : Type} (env : Env β) (b : β) (t : Mem) (lba : Nat)
    (hlba : lba < 4294967296) :
    rawAt env b t lba 0 = env.cda.Read_Raw_Sector b t lba := by
  simp [rawAt, backendAt, tmpbufAt, runAt, u32_of_lt hlba]

/-- The codec call for the first sector of a run. -/
theorem sectorCopied_zero {β : Type} (env : Env β) (b : β) (t : Mem) (lba : Nat)
    (hlba : lba < 4294967296) :
    correctedAt env b t lba 0 =
      env.edc_lec_check_and_correct (env.cda.Read_Raw_Sector b t lba).buf
        (decide (((env.cda.Read_Raw_Sector b t lba).buf 15).val = 2)) := by
  unfold correctedAt; rw [rawAt_zero env _ t lba hlba]

/-- One iteration of the loop on a sector that is read, accepted by the codec and
left with mode byte 1 or 2: the sector is copied and the next iteration starts with
`tmpbuf` as the validation left it. -/
theorem ReadSector_loop_succ_ok {β : Type} (env : Env β) (n : Nat) (self : CDIF_ST β)
    (pBuf : Mem) (off lba ret : Nat) (trace : List BackendCall) (t : Mem)
    (hU : self.UnrecoverableError = false) (hlba : lba < 4294967296)
    (hv : SectorValid env self.disc_cdaccess t lba 0)
    (hm : ((correctedAt env self.disc_cdaccess t lba 0).buf 15).val = 1 ∨
      ((correctedAt env self.disc_cdaccess t lba 0).buf 15).val = 2) :
    CDIF.ReadSector.loop env (n + 1) self pBuf off lba ret trace t =
      CDIF.ReadSector.loop env n
        { self with disc_cdaccess := (env.cda.Read_Raw_Sector self.disc_cdaccess t lba).cda }
        (memcpy pBuf off (correctedAt env self.disc_cdaccess t lba 0).buf
          (if ((correctedAt env self.disc_cdaccess t lba 0).buf 15).val = 1 then 16 else 24)
          2048)
        (off + 2048) (u32 (lba + 1))
        (if ret = 0 then ((correctedAt env self.disc_cdaccess t lba 0).buf 15).val else ret)
        (trace ++ [BackendCall.Read_Raw_Sector lba])
        (CDIF.ValidateRawSector env
          (env.cda.Read_Raw_Sector self.disc_cdaccess t lba).buf).buf := by
  obtain ⟨hok, hmode, hcodec⟩ := hv
  rw [rawAt_zero env _ t lba hlba] at hok hmode
  have hc0 := sectorCopied_zero env self.disc_cdaccess t lba hlba
  rw [hc0] at hcodec hm ⊢
  rw [CDIF.ReadSector.loop, ReadRawSector_of_ok env self t lba hU hok]
  simp only [ValidateRawSector_of_valid env _ hmode hcodec]
  rcases hm with h1 | h2
  · simp [h1]
  · simp [h2]

/-- One iteration of the loop on a sector whose raw read throws, whose validation
fails or whose mode byte after the codec is neither 1 nor 2: the loop ends with 0,
the output as it was, after the one backend call. -/
theorem ReadSector_loop_succ_fail {β : Type} (env : Env β) (n : Nat) (self : CDIF_ST β)
    (pBuf : Mem) (off lba ret : Nat) (trace : List BackendCall) (t : Mem)
    (hU : self.UnrecoverableError = false) (hlba : lba < 4294967296)
    (hfail : ¬ (SectorValid env self.disc_cdaccess t lba 0 ∧
      (((correctedAt env self.disc_cdaccess t lba 0).buf 15).val = 1 ∨
        ((correctedAt env self.disc_cdaccess t lba 0).buf 15).val = 2))) :
    (CDIF.ReadSector.loop env (n + 1) self pBuf off lba ret trace t).ret = 0 ∧
      (CDIF.ReadSector.loop env (n + 1) self pBuf off lba ret trace t).pBuf = pBuf ∧
      (CDIF.ReadSector.loop env (n + 1) self pBuf off lba ret trace t).trace =
        trace ++ [BackendCall.Read_Raw_Sector lba] := by
  unfold SectorValid at hfail
  rw [sectorCopied_zero env self.disc_cdaccess t lba hlba, rawAt_zero env _ t lba hlba] at hfail
  have htrace : (CDIF_ST.ReadRawSector env self t lba).trace =
      [BackendCall.Read_Raw_Sector lba] := by
    unfold CDIF_ST.ReadRawSector
    simp only [hU]
    split_ifs <;> simp_all
  rw [CDIF.ReadSector.loop]
  rcases Bool.eq_false_or_eq_true (env.cda.Read_Raw_Sector self.disc_cdaccess t lba).ok
    with hok | hok
  · rw [ReadRawSector_of_ok env self t lba hU hok]
    generalize env.cda.Read_Raw_Sector self.disc_cdaccess t lba = r at hfail hok ⊢
    by_cases hmode : (r.buf 15).val = 1 ∨ (r.buf 15).val = 2
    · rcases Bool.eq_false_or_eq_true
          (env.edc_lec_check_and_correct r.buf (decide ((r.buf 15).val = 2))).ok with hc | hc
      · simp only [ValidateRawSector_of_valid env _ hmode hc]
        generalize env.edc_lec_check_and_correct r.buf (decide ((r.buf 15).val = 2)) = c
          at hfail hc ⊢
        have hm1 : ¬ ((c.buf 15).val = 1) := fun h => hfail ⟨⟨hok, hmode, hc⟩, Or.inl h⟩
        have hm2 : ¬ ((c.buf 15).val = 2) := fun h => hfail ⟨⟨hok, hmode, hc⟩, Or.inr h⟩
        have e15 : (12 + 3 : Nat) = 15 := rfl
        simp only [e15, Bool.not_true, Bool.false_eq_true, if_false, if_neg hm1, if_neg hm2]
        exact ⟨trivial, trivial, trivial⟩
      · have hv : (CDIF.ValidateRawSector env r.buf).ret = false := by
          unfold CDIF.ValidateRawSector
          have h2 : ¬ ((r.buf 15).val ≠ 1 ∧ (r.buf 15).val ≠ 2) := by omega
          simp [h2, hc]
        simp [hv]
    · have hv : (CDIF.ValidateRawSector env r.buf).ret = false := by
        unfold CDIF.ValidateRawSector
        have h2 : (r.buf 15).val ≠ 1 ∧ (r.buf 15).val ≠ 2 := by omega
        simp [h2]
      simp [hv]
  · have hr : (CDIF_ST.ReadRawSector env self t lba).ret = false := by
      unfold CDIF_ST.ReadRawSector
      simp [hU, hok]
    simp [hr, htrace]

/-- The hypotheses on the sectors of a run, read for the run that starts at its
second sector. -/
theorem sectors_shift {β : Type} (env : Env β) (b : β) (t : Mem) (lba : Nat)
    (hlba : lba < 4294967296) (i : Nat) :
    (SectorValid env b t lba (i + 1) ∧
        (((correctedAt env b t lba (i + 1)).buf 15).val = 1 ∨
          ((correctedAt env b t lba (i + 1)).buf 15).val = 2)) ↔
      (SectorValid env (env.cda.Read_Raw_Sector b t lba).cda
          (CDIF.ValidateRawSector env (env.cda.Read_Raw_Sector b t lba).buf).buf
          (u32 (lba + 1)) i ∧
        (((correctedAt env (env.cda.Read_Raw_Sector b t lba).cda
            (CDIF.ValidateRawSector env (env.cda.Read_Raw_Sector b t lba).buf).buf
            (u32 (lba + 1)) i).buf 15).val = 1 ∨
          ((correctedAt env (env.cda.Read_Raw_Sector b t lba).cda
            (CDIF.ValidateRawSector env (env.cda.Read_Raw_Sector b t lba).buf).buf
            (u32 (lba + 1)) i).buf 15).val = 2)) := by
  unfold SectorValid
  rw [rawAt_succ_left env b t lba hlba, correctedAt_succ_left env b t lba hlba]


/-- The loop of `CDIF::ReadSector` over `n` sectors that are all read, accepted by
the codec and left with mode byte 1 or 2: its result, sector by sector. -/
theorem ReadSector_loop_ok {β : Type} (env : Env β) :
    ∀ (n : Nat) (self : CDIF_ST β) (pBuf : Mem) (off lba ret : Nat)
      (trace : List BackendCall) (t : Mem),
      self.UnrecoverableError = false → lba < 4294967296 →
      (∀ i, i < n → SectorValid env self.disc_cdaccess t lba i ∧
        (((correctedAt env self.disc_cdaccess t lba i).buf 15).val = 1 ∨
          ((correctedAt env self.disc_cdaccess t lba i).buf 15).val = 2)) →
      (CDIF.ReadSector.loop env n self pBuf off lba ret trace t).ret =
          (if ret = 0 ∧ 0 < n then
            ((correctedAt env self.disc_cdaccess t lba 0).buf 15).val else ret) ∧
        (CDIF.ReadSector.loop env n self pBuf off lba ret trace t).self =
          { self with disc_cdaccess := backendAt env self.disc_cdaccess t lba n } ∧
        (CDIF.ReadSector.loop env n self pBuf off lba ret trace t).trace =
          trace ++ (List.range n).map (fun i => BackendCall.Read_Raw_Sector (u32 (lba + i))) ∧
        (∀ i k, i < n → k < 2048 →
          (CDIF.ReadSector.loop env n self pBuf off lba ret trace t).pBuf (off + i * 2048 + k) =
            (correctedAt env self.disc_cdaccess t lba i).buf
              ((if ((correctedAt env self.disc_cdaccess t lba i).buf 15).val = 1
                then 16 else 24) + k)) ∧
        (∀ j, j < off ∨ off + n * 2048 ≤ j →
          (CDIF.ReadSector.loop env n self pBuf off lba ret trace t).pBuf j = pBuf j) := by
  intro n
  induction n with
  | zero =>
    intro self pBuf off lba ret trace t _ _ _
    cases self
    simp [CDIF.ReadSector.loop, backendAt, runAt]
  | succ n ih =>
    intro self pBuf off lba ret trace t hU hlba hs
    obtain ⟨hv0, hm0⟩ := hs 0 (Nat.succ_pos n)
    rw [ReadSector_loop_succ_ok env n self pBuf off lba ret trace t hU hlba hv0 hm0]
    obtain ⟨ihret, ihself, ihtrace, ihdata, ihrest⟩ :=
      ih { self with disc_cdaccess := (env.cda.Read_Raw_Sector self.disc_cdaccess t lba).cda }
        (memcpy pBuf off (correctedAt env self.disc_cdaccess t lba 0).buf
            (if ((correctedAt env self.disc_cdaccess t lba 0).buf 15).val = 1 then 16 else 24)
            2048)
        (off + 2048) (u32 (lba + 1))
        (if ret = 0 then ((correctedAt env self.disc_cdaccess t lba 0).buf 15).val else ret)
        (trace ++ [BackendCall.Read_Raw_Sector lba])
        (CDIF.ValidateRawSector env
          (env.cda.Read_Raw_Sector self.disc_cdaccess t lba).buf).buf
        hU (u32_lt _)
        (fun i hi => (sectors_shift env _ t lba hlba i).1 (hs (i + 1) (Nat.succ_lt_succ hi)))
    refine ⟨?_, ?_, ?_, ?_, ?_⟩
    · rw [ihret]
      have hne : ((correctedAt env self.disc_cdaccess t lba 0).buf 15).val ≠ 0 := by omega
      by_cases hr : ret = 0
      · simp [hr, hne]
      · simp [hr]
    · rw [ihself]
      simp [backendAt_succ_left env _ t lba hlba]
    · rw [ihtrace, List.range_succ_eq_map n]
      simp [List.map_map, Function.comp, u32_succ_add, u32_of_lt hlba]
    · intro i k hi hk
      cases i with
      | zero =>
        rw [ihrest _ (by omega)]
        unfold memcpy
        have hin : off ≤ off + 0 * 2048 + k ∧ off + 0 * 2048 + k < off + 2048 := by omega
        rw [if_pos hin]
        congr 1
        omega
      | succ i =>
        have e : off + (i + 1) * 2048 + k = off + 2048 + i * 2048 + k := by ring
        rw [e, ihdata i k (by omega) hk, correctedAt_succ_left env _ t lba hlba]
    · intro j hj
      rw [ihrest j (by omega)]
      unfold memcpy
      have hout : ¬ (off ≤ j ∧ j < off + 2048) := by omega
      rw [if_neg hout]

/-- The loop of `CDIF::ReadSector` when sector number `k` is the first that is not
read, accepted and left with mode byte 1 or 2. -/
theorem ReadSector_loop_stops {β : Type} (env : Env β) :
    ∀ (k n : Nat) (self : CDIF_ST β) (pBuf : Mem) (off lba ret : Nat)
      (trace : List BackendCall) (t : Mem),
      self.UnrecoverableError = false → lba < 4294967296 → k < n →
      (∀ i, i < k → SectorValid env self.disc_cdaccess t lba i ∧
        (((correctedAt env self.disc_cdaccess t lba i).buf 15).val = 1 ∨
          ((correctedAt env self.disc_cdaccess t lba i).buf 15).val = 2)) →
      ¬ (SectorValid env self.disc_cdaccess t lba k ∧
        (((correctedAt env self.disc_cdaccess t lba k).buf 15).val = 1 ∨
          ((correctedAt env self.disc_cdaccess t lba k).buf 15).val = 2)) →
      (CDIF.ReadSector.loop env n self pBuf off lba ret trace t).ret = 0 ∧
        (CDIF.ReadSector.loop env n self pBuf off lba ret trace t).trace =
          trace ++
            (List.range (k + 1)).map (fun i => BackendCall.Read_Raw_Sector (u32 (lba + i))) ∧
        (∀ i j, i < k → j < 2048 →
          (CDIF.ReadSector.loop env n self pBuf off lba ret trace t).pBuf (off + i * 2048 + j) =
            (correctedAt env self.disc_cdaccess t lba i).buf
              ((if ((correctedAt env self.disc_cdaccess t lba i).buf 15).val = 1
                then 16 else 24) + j)) ∧
        (∀ j, j < off ∨ off + k * 2048 ≤ j →
          (CDIF.ReadSector.loop env n self pBuf off lba ret trace t).pBuf j = pBuf j) := by
  intro k
  induction k with
  | zero =>
    intro n self pBuf off lba ret trace t hU hlba hk _ hfail
    obtain ⟨n, rfl⟩ : ∃ m, n = m + 1 := ⟨n - 1, by omega⟩
    obtain ⟨h1, h2, h3⟩ :=
      ReadSector_loop_succ_fail env n self pBuf off lba ret trace t hU hlba hfail
    refine ⟨h1, ?_, ?_, ?_⟩
    · rw [h3]
      have : List.range (0 + 1) = [0] := rfl
      rw [this]
      simp [u32_of_lt hlba]
    · intro i j hi _; omega
    · intro j _; rw [h2]
  | succ k ih =>
    intro n self pBuf off lba ret trace t hU hlba hk hbefore hfail
    obtain ⟨n, rfl⟩ : ∃ m, n = m + 1 := ⟨n - 1, by omega⟩
    obtain ⟨hv0, hm0⟩ := hbefore 0 (Nat.succ_pos k)
    rw [ReadSector_loop_succ_ok env n self pBuf off lba ret trace t hU hlba hv0 hm0]
    obtain ⟨ihret, ihtrace, ihdata, ihrest⟩ :=
      ih n { self with disc_cdaccess :=
            (env.cda.Read_Raw_Sector self.disc_cdaccess t lba).cda }
        (memcpy pBuf off (correctedAt env self.disc_cdaccess t lba 0).buf
            (if ((correctedAt env self.disc_cdaccess t lba 0).buf 15).val = 1 then 16 else 24)
            2048)
        (off + 2048) (u32 (lba + 1))
        (if ret = 0 then ((correctedAt env self.disc_cdaccess t lba 0).buf 15).val else ret)
        (trace ++ [BackendCall.Read_Raw_Sector lba])
        (CDIF.ValidateRawSector env
          (env.cda.Read_Raw_Sector self.disc_cdaccess t lba).buf).buf
        hU (u32_lt _) (by omega)
        (fun i hi =>
          (sectors_shift env _ t lba hlba i).1 (hbefore (i + 1) (Nat.succ_lt_succ hi)))
        (fun h => hfail ((sectors_shift env _ t lba hlba k).2 h))
    refine ⟨ihret, ?_, ?_, ?_⟩
    · rw [ihtrace, List.range_succ_eq_map (k + 1)]
      simp [List.map_map, Function.comp, u32_succ_add, u32_of_lt hlba]
    · intro i j hi hj
      cases i with
      | zero =>
        rw [ihrest _ (by omega)]
        unfold memcpy
        have hin : off ≤ off + 0 * 2048 + j ∧ off + 0 * 2048 + j < off + 2048 := by omega
        rw [if_pos hin]
        congr 1
        omega
      | succ i =>
        have e : off + (i + 1) * 2048 + j = off + 2048 + i * 2048 + j := by ring
        rw [e, ihdata i j (by omega) hj, correctedAt_succ_left env _ t lba hlba]
    · intro j hj
      rw [ihrest j (by omega)]
      unfold memcpy
      have hout : ¬ (off ≤ j ∧ j < off + 2048) := by omega
      rw [if_neg hout]

/-- The loop of `CDIF::ReadSector` returns at most 2, and something other than 0
only when every sector was read, accepted and left with mode byte 1 or 2. -/
theorem ReadSector_loop_ret {β : Type} (env : Env β) :
    ∀ (n : Nat) (self : CDIF_ST β) (pBuf : Mem) (off lba ret : Nat)
      (trace : List BackendCall) (t : Mem),
      self.UnrecoverableError = false → lba < 4294967296 → ret ≤ 2 →
      (CDIF.ReadSector.loop env n self pBuf off lba ret trace t).ret ≤ 2 ∧
        ((CDIF.ReadSector.loop env n self pBuf off lba ret trace t).ret ≠ 0 →
          (0 < n ∨ ret ≠ 0) ∧
          ∀ i, i < n → SectorValid env self.disc_cdaccess t lba i ∧
            (((correctedAt env self.disc_cdaccess t lba i).buf 15).val = 1 ∨
              ((correctedAt env self.disc_cdaccess t lba i).buf 15).val = 2)) := by
  intro n
  induction n with
  | zero =>
    intro self pBuf off lba ret trace t _ _ hret
    simp only [CDIF.ReadSector.loop]
    exact ⟨hret, fun h => ⟨Or.inr h, fun i hi => absurd hi (Nat.not_lt_zero i)⟩⟩
  | succ n ih =>
    intro self pBuf off lba ret trace t hU hlba hret
    by_cases h0 : SectorValid env self.disc_cdaccess t lba 0 ∧
        (((correctedAt env self.disc_cdaccess t lba 0).buf 15).val = 1 ∨
          ((correctedAt env self.disc_cdaccess t lba 0).buf 15).val = 2)
    · rw [ReadSector_loop_succ_ok env n self pBuf off lba ret trace t hU hlba h0.1 h0.2]
      obtain ⟨ih1, ih2⟩ :=
        ih { self with disc_cdaccess :=
              (env.cda.Read_Raw_Sector self.disc_cdaccess t lba).cda }
          (memcpy pBuf off (correctedAt env self.disc_cdaccess t lba 0).buf
              (if ((correctedAt env self.disc_cdaccess t lba 0).buf 15).val = 1 then 16 else 24)
              2048)
          (off + 2048) (u32 (lba + 1))
          (if ret = 0 then ((correctedAt env self.disc_cdaccess t lba 0).buf 15).val else ret)
          (trace ++ [BackendCall.Read_Raw_Sector lba])
          (CDIF.ValidateRawSector env
            (env.cda.Read_Raw_Sector self.disc_cdaccess t lba).buf).buf
          hU (u32_lt _) (by split_ifs <;> omega)
      refine ⟨ih1, fun hne => ⟨Or.inl (Nat.succ_pos n), fun i hi => ?_⟩⟩
      cases i with
      | zero => exact h0
      | succ i => exact (sectors_shift env _ t lba hlba i).2 ((ih2 hne).2 i (by omega))
    · obtain ⟨h1, -, -⟩ :=
        ReadSector_loop_succ_fail env n self pBuf off lba ret trace t hU hlba h0
      rw [h1]
      exact ⟨by omega, fun h => absurd rfl h⟩


/-! ## The claims on `CDIF::ValidateRawSector` and `CDIF::ReadSector` -/

/-- C4: `CDIF::ValidateRawSector` returns true exactly when the mode byte `buf[15]`
is 1 or 2 and the codec, called with the flag `buf[15] == 2`, reports success; the
codec is called once with that flag when the mode byte is 1 or 2, and not at all
otherwise. -/
theorem C4_ValidateRawSector_iff {β : Type} (env : Env β) (buf : Mem) :
    ((CDIF.ValidateRawSector env buf).ret = true ↔
      (((buf 15).val = 1 ∨ (buf 15).val = 2) ∧
        (env.edc_lec_check_and_correct buf (decide ((buf 15).val = 2))).ok = true)) ∧
    (CDIF.ValidateRawSector env buf).codec_calls =
      (if (buf 15).val = 1 ∨ (buf 15).val = 2 then [decide ((buf 15).val = 2)] else []) := by
  unfold CDIF.ValidateRawSector
  by_cases h : (buf 15).val = 1 ∨ (buf 15).val = 2
  · have h2 : ¬ ((buf 15).val ≠ 1 ∧ (buf 15).val ≠ 2) := by omega
    cases hc : (env.edc_lec_check_and_correct buf (decide ((buf 15).val = 2))).ok <;>
      simp [h, h2, hc]
  · have h2 : (buf 15).val ≠ 1 ∧ (buf 15).val ≠ 2 := by omega
    simp [h, h2]

/-- C5: when the mode byte `buf[15]` is neither 1 nor 2, `CDIF::ValidateRawSector`
returns false, makes no call of the codec, and leaves the sector buffer as it was. -/
theorem C5_ValidateRawSector_invalid_mode {β : Type} (env : Env β) (buf : Mem)
    (h : (buf 15).val ≠ 1 ∧ (buf 15).val ≠ 2) :
    (CDIF.ValidateRawSector env buf).ret = false ∧
      (CDIF.ValidateRawSector env buf).codec_calls = [] ∧
      (CDIF.ValidateRawSector env buf).buf = buf := by
  unfold CDIF.ValidateRawSector
  simp [h]

/-- Witness of C5: a sector of zero bytes (mode byte 0), with a codec that would
repair byte 16. -/
theorem C5_ValidateRawSector_invalid_mode_witness :
    ((zeroMem 15).val ≠ 1 ∧ (zeroMem 15).val ≠ 2) ∧
      (CDIF.ValidateRawSector repairEnv zeroMem).ret = false ∧
      (CDIF.ValidateRawSector repairEnv zeroMem).codec_calls = [] ∧
      (CDIF.ValidateRawSector repairEnv zeroMem).buf = zeroMem :=
  ⟨by decide, C5_ValidateRawSector_invalid_mode repairEnv zeroMem (by decide)⟩

/-- C3, as stated, fails. The backend delivers a Mode 1 raw sector whose byte 16 is
`0xAA`; with a codec that repairs that byte to `0xBB` and accepts the sector, the
one-sector read puts `0xBB`, not byte 16 of the raw sector, at offset 0 of the
output; with a codec that clears the mode byte and accepts the sector, the read
returns 0, not the mode byte 1 of the raw sector. -/
theorem C3_raw_bytes_counterexample :
    ((repairEnv.cda.Read_Raw_Sector demoCDIF.disc_cdaccess repairEnv.uninit 0).buf 15).val = 1 ∧
      (repairEnv.cda.Read_Raw_Sector demoCDIF.disc_cdaccess repairEnv.uninit 0).ok = true ∧
      (repairEnv.edc_lec_check_and_correct
        (repairEnv.cda.Read_Raw_Sector demoCDIF.disc_cdaccess repairEnv.uninit 0).buf
        false).ok = true ∧
      (CDIF.ReadSector repairEnv demoCDIF zeroMem 0 1).ret = 1 ∧
      (CDIF.ReadSector repairEnv demoCDIF zeroMem 0 1).pBuf 0 = 187 ∧
      (repairEnv.cda.Read_Raw_Sector demoCDIF.disc_cdaccess repairEnv.uninit 0).buf 16 = 170 ∧
      ¬ (∀ k, k < 2048 → (CDIF.ReadSector repairEnv demoCDIF zeroMem 0 1).pBuf k =
        (repairEnv.cda.Read_Raw_Sector demoCDIF.disc_cdaccess repairEnv.uninit 0).buf
          (16 + k)) ∧
      ((modeClearingEnv.cda.Read_Raw_Sector demoCDIF.disc_cdaccess modeClearingEnv.uninit 0).buf
        15).val = 1 ∧
      (modeClearingEnv.edc_lec_check_and_correct
        (modeClearingEnv.cda.Read_Raw_Sector demoCDIF.disc_cdaccess modeClearingEnv.uninit
          0).buf false).ok = true ∧
      (CDIF.ReadSector modeClearingEnv demoCDIF zeroMem 0 1).ret ≠ 1 := by
  refine ⟨by decide, by decide, by decide, by decide, by decide, by decide, ?_, by decide,
    by decide, by decide⟩
  intro h
  exact absurd (h 0 (by decide)) (by decide)

/-- A one-sector `CDIF::ReadSector` on a sector that is read, accepted by the codec
and left with mode byte `m` in {1, 2}. -/
theorem ReadSector_one_corrected {β : Type} (env : Env β) (self : CDIF_ST β) (pBuf : Mem)
    (lba m : Nat) (hU : self.UnrecoverableError = false)
    (hread : (env.cda.Read_Raw_Sector self.disc_cdaccess env.uninit lba).ok = true)
    (hraw : ((env.cda.Read_Raw_Sector self.disc_cdaccess env.uninit lba).buf 15).val = 1 ∨
      ((env.cda.Read_Raw_Sector self.disc_cdaccess env.uninit lba).buf 15).val = 2)
    (hcodec : (env.edc_lec_check_and_correct
      (env.cda.Read_Raw_Sector self.disc_cdaccess env.uninit lba).buf
      (decide (((env.cda.Read_Raw_Sector self.disc_cdaccess env.uninit lba).buf 15).val = 2))).ok
        = true)
    (hm : ((env.edc_lec_check_and_correct
      (env.cda.Read_Raw_Sector self.disc_cdaccess env.uninit lba).buf
      (decide (((env.cda.Read_Raw_Sector self.disc_cdaccess env.uninit lba).buf 15).val = 2))).buf
        15).val = m)
    (hm12 : m = 1 ∨ m = 2) :
    (CDIF.ReadSector env self pBuf lba 1).ret = m ∧
      (m = 1 → ∀ k, k < 2048 → (CDIF.ReadSector env self pBuf lba 1).pBuf k =
        (env.edc_lec_check_and_correct
          (env.cda.Read_Raw_Sector self.disc_cdaccess env.uninit lba).buf
          (decide (((env.cda.Read_Raw_Sector self.disc_cdaccess env.uninit lba).buf 15).val
            = 2))).buf (16 + k)) ∧
      (m = 2 → ∀ k, k < 2048 → (CDIF.ReadSector env self pBuf lba 1).pBuf k =
        (env.edc_lec_check_and_correct
          (env.cda.Read_Raw_Sector self.disc_cdaccess env.uninit lba).buf
          (decide (((env.cda.Read_Raw_Sector self.disc_cdaccess env.uninit lba).buf 15).val
            = 2))).buf (24 + k)) ∧
      (∀ k, 2048 ≤ k → (CDIF.ReadSector env self pBuf lba 1).pBuf k = pBuf k) := by
  have hrs : CDIF.ReadSector env self pBuf lba 1 =
      ⟨{ self with disc_cdaccess :=
          (env.cda.Read_Raw_Sector self.disc_cdaccess env.uninit lba).cda },
        memcpy pBuf 0 (env.edc_lec_check_and_correct
          (env.cda.Read_Raw_Sector self.disc_cdaccess env.uninit lba).buf
          (decide (((env.cda.Read_Raw_Sector self.disc_cdaccess env.uninit lba).buf 15).val
            = 2))).buf (if m = 1 then 16 else 24) 2048,
        m, [BackendCall.Read_Raw_Sector lba]⟩ := by
    unfold CDIF.ReadSector
    rw [if_neg (by simp [hU]), CDIF.ReadSector.loop,
      ReadRawSector_of_ok env self env.uninit lba hU hread]
    simp only [ValidateRawSector_of_valid env _ hraw hcodec, hm]
    rcases hm12 with h1 | h2
    · simp [h1, CDIF.ReadSector.loop]
    · simp [h2, CDIF.ReadSector.loop]
  rw [hrs]
  refine ⟨rfl, ?_, ?_, ?_⟩
  · intro h1 k hk
    simp [memcpy, h1, hk]
  · intro h2 k hk
    simp [memcpy, h2, hk]
  · intro k hk
    have : ¬ k < 2048 := by omega
    simp [memcpy, this]

/-- C3, amended: a raw sector that is read without an exception, has mode byte 1 or
2 and is accepted by the codec, the sector as the codec leaves it having mode byte
`m` in {1, 2}: `CDIF::ReadSector` with `nSectors = 1` returns `m`, the first 2048
output bytes are bytes [16, 2064) of the corrected sector when `m = 1` and bytes
[24, 2072) of it when `m = 2`, and no other output byte changes. -/
theorem C3_ReadSector_one_corrected {β : Type} (env : Env β) (self : CDIF_ST β) (pBuf : Mem)
    (lba m : Nat) (hU : self.UnrecoverableError = false)
    (hread : (env.cda.Read_Raw_Sector self.disc_cdaccess env.uninit lba).ok = true)
    (hraw : ((env.cda.Read_Raw_Sector self.disc_cdaccess env.uninit lba).buf 15).val = 1 ∨
      ((env.cda.Read_Raw_Sector self.disc_cdaccess env.uninit lba).buf 15).val = 2)
    (hcodec : (env.edc_lec_check_and_correct
      (env.cda.Read_Raw_Sector self.disc_cdaccess env.uninit lba).buf
      (decide (((env.cda.Read_Raw_Sector self.disc_cdaccess env.uninit lba).buf 15).val = 2))).ok
        = true)
    (hm : ((env.edc_lec_check_and_correct
      (env.cda.Read_Raw_Sector self.disc_cdaccess env.uninit lba).buf
      (decide (((env.cda.Read_Raw_Sector self.disc_cdaccess env.uninit lba).buf 15).val = 2))).buf
        15).val = m)
    (hm12 : m = 1 ∨ m = 2) :
    (CDIF.ReadSector env self pBuf lba 1).ret = m ∧
      (m = 1 → ∀ k, k < 2048 → (CDIF.ReadSector env self pBuf lba 1).pBuf k =
        (env.edc_lec_check_and_correct
          (env.cda.Read_Raw_Sector self.disc_cdaccess env.uninit lba).buf
          (decide (((env.cda.Read_Raw_Sector self.disc_cdaccess env.uninit lba).buf 15).val
            = 2))).buf (16 + k)) ∧
      (m = 2 → ∀ k, k < 2048 → (CDIF.ReadSector env self pBuf lba 1).pBuf k =
        (env.edc_lec_check_and_correct
          (env.cda.Read_Raw_Sector self.disc_cdaccess env.uninit lba).buf
          (decide (((env.cda.Read_Raw_Sector self.disc_cdaccess env.uninit lba).buf 15).val
            = 2))).buf (24 + k)) ∧
      (∀ k, 2048 ≤ k → (CDIF.ReadSector env self pBuf lba 1).pBuf k = pBuf k) :=
  ReadSector_one_corrected env self pBuf lba m hU hread hraw hcodec hm hm12

/-- Witness of C3: the sector whose byte 16 the codec repairs. -/
theorem C3_ReadSector_one_corrected_witness :
    (CDIF.ReadSector repairEnv demoCDIF zeroMem 0 1).ret = 1 ∧
      (CDIF.ReadSector repairEnv demoCDIF zeroMem 0 1).pBuf 0 = 187 := by
  have h := C3_ReadSector_one_corrected repairEnv demoCDIF zeroMem 0 1 rfl rfl (Or.inl rfl) rfl
    rfl (Or.inl rfl)
  exact ⟨h.1, h.2.1 rfl 0 (by decide)⟩

/-- C2, as stated, fails: the raw read of sector 0 succeeds with mode byte 1 and
`CDIF::ValidateRawSector` accepts the sector, but the codec has cleared the mode
byte, and `CDIF::ReadSector` returns 0, neither 1 nor 2. -/
theorem C2_mode_counterexample :
    demoCDIF.UnrecoverableError = false ∧
      (CDIF_ST.ReadRawSector modeClearingEnv demoCDIF modeClearingEnv.uninit 0).ret = true ∧
      ((CDIF_ST.ReadRawSector modeClearingEnv demoCDIF modeClearingEnv.uninit 0).buf 15).val
        = 1 ∧
      (CDIF.ValidateRawSector modeClearingEnv
        (CDIF_ST.ReadRawSector modeClearingEnv demoCDIF modeClearingEnv.uninit 0).buf).ret
        = true ∧
      (CDIF.ReadSector modeClearingEnv demoCDIF zeroMem 0 1).ret = 0 ∧
      ¬ ((CDIF.ReadSector modeClearingEnv demoCDIF zeroMem 0 1).ret = 1 ∨
        (CDIF.ReadSector modeClearingEnv demoCDIF zeroMem 0 1).ret = 2) := by
  decide

/-- C2, amended: with `UnrecoverableError` unset, `nSectors = n ≥ 1`, and every
sector of the run read without an exception, of mode byte 1 or 2, accepted by the
codec and left by the codec with a mode byte that is 1 or 2: `CDIF::ReadSector`
returns the mode byte of the first corrected sector, which is 1 or 2, and for every
`i < n` the output slice [i*2048, (i+1)*2048) is bytes [16, 2064) of the corrected
sector `i` when its mode byte is 1 and bytes [24, 2072) when it is 2. -/
theorem C2_ReadSector_run_corrected {β : Type} (env : Env β) (self : CDIF_ST β) (pBuf : Mem)
    (lba n : Nat) (hU : self.UnrecoverableError = false) (hlba : lba < 4294967296)
    (hn : 1 ≤ n)
    (hvalid : ∀ i, i < n → SectorValid env self.disc_cdaccess env.uninit lba i)
    (hmode : ∀ i, i < n →
      ((correctedAt env self.disc_cdaccess env.uninit lba i).buf 15).val = 1 ∨
        ((correctedAt env self.disc_cdaccess env.uninit lba i).buf 15).val = 2) :
    (CDIF.ReadSector env self pBuf lba n).ret =
        ((correctedAt env self.disc_cdaccess env.uninit lba 0).buf 15).val ∧
      ((CDIF.ReadSector env self pBuf lba n).ret = 1 ∨
        (CDIF.ReadSector env self pBuf lba n).ret = 2) ∧
      (∀ i, i < n →
        (((correctedAt env self.disc_cdaccess env.uninit lba i).buf 15).val = 1 →
          ∀ k, k < 2048 → (CDIF.ReadSector env self pBuf lba n).pBuf (i * 2048 + k) =
            (correctedAt env self.disc_cdaccess env.uninit lba i).buf (16 + k)) ∧
        (((correctedAt env self.disc_cdaccess env.uninit lba i).buf 15).val = 2 →
          ∀ k, k < 2048 → (CDIF.ReadSector env self pBuf lba n).pBuf (i * 2048 + k) =
            (correctedAt env self.disc_cdaccess env.uninit lba i).buf (24 + k))) := by
  obtain ⟨hret, -, -, hdata, -⟩ :=
    ReadSector_loop_ok env n self pBuf 0 lba 0 [] env.uninit hU hlba
      (fun i hi => ⟨hvalid i hi, hmode i hi⟩)
  have hrs : CDIF.ReadSector env self pBuf lba n =
      CDIF.ReadSector.loop env n self pBuf 0 lba 0 [] env.uninit := by
    unfold CDIF.ReadSector
    rw [if_neg (by simp [hU])]
  rw [hrs]
  have hpos : 0 < n := hn
  have hret0 : (CDIF.ReadSector.loop env n self pBuf 0 lba 0 [] env.uninit).ret =
      ((correctedAt env self.disc_cdaccess env.uninit lba 0).buf 15).val := by
    rw [hret]; simp [hpos]
  refine ⟨hret0, ?_, ?_⟩
  · rw [hret0]; exact hmode 0 hpos
  · intro i hi
    constructor
    · intro h1 k hk
      have := hdata i k hi hk
      rw [h1] at this
      simpa using this
    · intro h2 k hk
      have := hdata i k hi hk
      rw [h2] at this
      simpa using this

/-- Witness of C2: two sectors on `lazyEnv`, whose backend writes sector 0 and
returns without writing for sector 1, so that the second iteration validates and
copies what the first one left in `tmpbuf`. -/
theorem C2_ReadSector_run_corrected_witness :
    (CDIF.ReadSector lazyEnv demoCDIF zeroMem 0 2).ret = 1 ∧
      (CDIF.ReadSector lazyEnv demoCDIF zeroMem 0 2).pBuf (1 * 2048 + 2047) =
        (correctedAt lazyEnv demoCDIF.disc_cdaccess lazyEnv.uninit 0 1).buf (16 + 2047) ∧
      (correctedAt lazyEnv demoCDIF.disc_cdaccess lazyEnv.uninit 0 1).buf (16 + 2047) = 170 := by
  have h := C2_ReadSector_run_corrected lazyEnv demoCDIF zeroMem 0 2 rfl (by decide) (by decide)
    (fun i hi => by
      have hi2 : i = 0 ∨ i = 1 := by omega
      rcases hi2 with h0 | h1
      · subst h0; exact ⟨rfl, Or.inl rfl, rfl⟩
      · subst h1; exact ⟨rfl, Or.inl rfl, rfl⟩)
    (fun i hi => by
      have hi2 : i = 0 ∨ i = 1 := by omega
      rcases hi2 with h0 | h1
      · subst h0; exact Or.inl rfl
      · subst h1; exact Or.inl rfl)
  exact ⟨h.1, (h.2.2 1 (by decide)).1 rfl 2047 (by decide), rfl⟩

/-! ## Calls on an interface with `UnrecoverableError` set -/

theorem call_refused {β : Type} (env : Env β) (self : CDIF_ST β) (c : Call)
    (hU : self.UnrecoverableError = true) :
    Refused self c (CDIF_ST.call env self c) := by
  cases c <;>
    simp [Refused, CDIF_ST.call, CDIF.ReadSector, CDIF_ST.ReadRawSector, CDIF_ST.Eject,
      CDIF_ST.HintReadSector, hU]

/-- C6: from a state with `UnrecoverableError` set, every call of a sequence of
`ReadSector`, `ReadRawSector`, `HintReadSector` and `Eject` calls is answered
without a backend call and leaves the interface as it was (so the flag stays set):
each `ReadSector` returns 0, each `Eject` returns false, each `ReadRawSector`
returns false; the sequence as a whole makes no backend call. -/
theorem C6_unrecoverable_calls_refused {β : Type} (env : Env β) (self : CDIF_ST β)
    (cs : List Call) (hU : self.UnrecoverableError = true) :
    List.Forall₂ (Refused self) cs (CDIF_ST.calls env self cs) ∧
      ((CDIF_ST.calls env self cs).map (fun st => st.trace)).flatten = [] := by
  induction cs with
  | nil => simp [CDIF_ST.calls]
  | cons c cs ih =>
    have hc := call_refused env self c hU
    have hself : (CDIF_ST.call env self c).self = self := hc.2.1
    simp only [CDIF_ST.calls, hself]
    refine ⟨List.Forall₂.cons hc ih.1, ?_⟩
    simp [hc.1, ih.2]

/-- Witness of C6: five calls on `brokenCDIF`. -/
theorem C6_unrecoverable_calls_refused_witness :
    List.Forall₂ (Refused brokenCDIF)
        [Call.ReadSector zeroMem 0 1, Call.Eject true, Call.HintReadSector 0,
          Call.ReadRawSector demoSector 0, Call.Eject false]
        (CDIF_ST.calls demoEnv brokenCDIF
          [Call.ReadSector zeroMem 0 1, Call.Eject true, Call.HintReadSector 0,
            Call.ReadRawSector demoSector 0, Call.Eject false]) ∧
      ((CDIF_ST.calls demoEnv brokenCDIF
          [Call.ReadSector zeroMem 0 1, Call.Eject true, Call.HintReadSector 0,
            Call.ReadRawSector demoSector 0, Call.Eject false]).map
        (fun st => st.trace)).flatten = [] :=
  C6_unrecoverable_calls_refused demoEnv brokenCDIF _ rfl

/-! ## `CDIF_ST::Eject` -/

theorem Eject_flags {β : Type} (env : Env β) (self : CDIF_ST β) (x : Bool)
    (hU : self.UnrecoverableError = false) :
    (CDIF_ST.Eject env self x).self.UnrecoverableError = false ∧
      (CDIF_ST.Eject env self x).self.DiscEjected = x := by
  unfold CDIF_ST.Eject
  simp only [hU]
  split_ifs <;> simp_all

theorem Eject_same_state {β : Type} (env : Env β) (self : CDIF_ST β) (x : Bool)
    (hU : self.UnrecoverableError = false) (hE : self.DiscEjected = x) :
    CDIF_ST.Eject env self x = ⟨self, Outcome.returned true, []⟩ := by
  unfold CDIF_ST.Eject
  cases self
  simp_all

/-- C9: with `UnrecoverableError` unset, a second `Eject(x)` right after a first
`Eject(x)` leaves the interface exactly as the first call left it (ejected flag,
table of contents and all other fields), returns true and makes no backend call. -/
theorem C9_Eject_idempotent {β : Type} (env : Env β) (self : CDIF_ST β) (x : Bool)
    (hU : self.UnrecoverableError = false) :
    (CDIF_ST.Eject env (CDIF_ST.Eject env self x).self x).self =
        (CDIF_ST.Eject env self x).self ∧
      (CDIF_ST.Eject env (CDIF_ST.Eject env self x).self x).ret = Outcome.returned true ∧
      (CDIF_ST.Eject env (CDIF_ST.Eject env self x).self x).trace = [] := by
  obtain ⟨h1, h2⟩ := Eject_flags env self x hU
  rw [Eject_same_state env _ x h1 h2]
  exact ⟨rfl, rfl, rfl⟩

/-- Witness of C9: ejecting the disc of `demoCDIF` twice. -/
theorem C9_Eject_idempotent_witness :
    (CDIF_ST.Eject demoEnv (CDIF_ST.Eject demoEnv demoCDIF true).self true).self =
        (CDIF_ST.Eject demoEnv demoCDIF true).self ∧
      (CDIF_ST.Eject demoEnv (CDIF_ST.Eject demoEnv demoCDIF true).self true).ret =
        Outcome.returned true ∧
      (CDIF_ST.Eject demoEnv (CDIF_ST.Eject demoEnv demoCDIF true).self true).trace = [] :=
  C9_Eject_idempotent demoEnv demoCDIF true rfl


theorem TOC_valid_iff (toc : TOC) :
    toc.valid = true ↔ 1 ≤ toc.first_track ∧ toc.first_track ≤ toc.last_track ∧
      toc.last_track < 100 := by
  unfold TOC.valid
  simp only [Bool.and_eq_true, decide_eq_true_eq]
  omega

/-- C10: on a non-ejected interface with `UnrecoverableError` unset and a backend
whose `Eject` never throws, `Eject(true)` returns true after the single backend call
`Eject(true)` and leaves the table of contents as it was; the following
`Eject(false)` calls the backend's `Eject(false)` and then `Read_TOC`, once, and
stores the table the backend wrote; when `Read_TOC` did not throw, the call returns
true if that table satisfies `1 <= first_track <= last_track < 100` and ends in a
failed assertion if not; in no case does it return true with a table violating it. -/
theorem C10_Eject_then_insert {β : Type} (env : Env β) (self : CDIF_ST β)
    (hU : self.UnrecoverableError = false) (hE : self.DiscEjected = false)
    (hmech : ∀ b x, (env.cda.Eject b x).ok = true) :
    (CDIF_ST.Eject env self true).ret = Outcome.returned true ∧
      (CDIF_ST.Eject env self true).trace = [BackendCall.Eject true] ∧
      (CDIF_ST.Eject env self true).self.disc_toc = self.disc_toc ∧
      (CDIF_ST.Eject env (CDIF_ST.Eject env self true).self false).trace =
        [BackendCall.Eject false, BackendCall.Read_TOC] ∧
      (CDIF_ST.Eject env (CDIF_ST.Eject env self true).self false).self.disc_toc =
        (env.cda.Read_TOC
          (env.cda.Eject (env.cda.Eject self.disc_cdaccess true).cda false).cda
          self.disc_toc).toc ∧
      ((env.cda.Read_TOC
          (env.cda.Eject (env.cda.Eject self.disc_cdaccess true).cda false).cda
          self.disc_toc).ok = true →
        (1 ≤ (CDIF_ST.Eject env (CDIF_ST.Eject env self true).self false).self.disc_toc.first_track ∧
          (CDIF_ST.Eject env (CDIF_ST.Eject env self true).self false).self.disc_toc.first_track ≤
            (CDIF_ST.Eject env (CDIF_ST.Eject env self true).self false).self.disc_toc.last_track ∧
          (CDIF_ST.Eject env (CDIF_ST.Eject env self true).self false).self.disc_toc.last_track
            < 100 →
          (CDIF_ST.Eject env (CDIF_ST.Eject env self true).self false).ret =
            Outcome.returned true) ∧
        (¬ (1 ≤ (CDIF_ST.Eject env (CDIF_ST.Eject env self true).self false).self.disc_toc.first_track ∧
          (CDIF_ST.Eject env (CDIF_ST.Eject env self true).self false).self.disc_toc.first_track ≤
            (CDIF_ST.Eject env (CDIF_ST.Eject env self true).self false).self.disc_toc.last_track ∧
          (CDIF_ST.Eject env (CDIF_ST.Eject env self true).self false).self.disc_toc.last_track
            < 100) →
          (CDIF_ST.Eject env (CDIF_ST.Eject env self true).self false).ret =
            Outcome.assert_failed)) ∧
      (¬ (1 ≤ (CDIF_ST.Eject env (CDIF_ST.Eject env self true).self false).self.disc_toc.first_track ∧
          (CDIF_ST.Eject env (CDIF_ST.Eject env self true).self false).self.disc_toc.first_track ≤
            (CDIF_ST.Eject env (CDIF_ST.Eject env self true).self false).self.disc_toc.last_track ∧
          (CDIF_ST.Eject env (CDIF_ST.Eject env self true).self false).self.disc_toc.last_track
            < 100) →
        (CDIF_ST.Eject env (CDIF_ST.Eject env self true).self false).ret ≠
          Outcome.returned true) := by
  have h1 : CDIF_ST.Eject env self true =
      ⟨{ self with DiscEjected := true,
                   disc_cdaccess := (env.cda.Eject self.disc_cdaccess true).cda },
        Outcome.returned true, [BackendCall.Eject true]⟩ := by
    unfold CDIF_ST.Eject
    simp [hU, hE, hmech]
  rw [h1]
  simp only
  generalize hb : (env.cda.Eject (env.cda.Eject self.disc_cdaccess true).cda false).cda = b2
  generalize ht : env.cda.Read_TOC b2 self.disc_toc = t
  have h2 : CDIF_ST.Eject env
      { self with DiscEjected := true,
                  disc_cdaccess := (env.cda.Eject self.disc_cdaccess true).cda } false =
      ⟨{ self with DiscEjected := false, disc_cdaccess := t.cda, disc_toc := t.toc },
        (if t.ok = true then
          (if t.toc.valid = true then Outcome.returned true else Outcome.assert_failed)
          else Outcome.returned false),
        [BackendCall.Eject false, BackendCall.Read_TOC]⟩ := by
    unfold CDIF_ST.Eject
    simp only [hU, hmech, hb, ht]
    cases hok : t.ok <;> cases hv : t.toc.valid <;> simp [hok, hv]
  rw [h2]
  simp only [← TOC_valid_iff]
  refine ⟨trivial, trivial, trivial, trivial, trivial, ?_, ?_⟩
  · intro hok
    simp [hok]
  · intro hv
    cases hok : t.ok <;> simp [hok, hv]

/-- Witness of C10: the re-read table of contents has first track 0 and the insert
ends in a failed assertion. -/
theorem C10_Eject_then_insert_witness :
    (CDIF_ST.Eject badTocEnv (CDIF_ST.Eject badTocEnv demoCDIF true).self false).trace =
        [BackendCall.Eject false, BackendCall.Read_TOC] ∧
      (CDIF_ST.Eject badTocEnv (CDIF_ST.Eject badTocEnv demoCDIF true).self false).self.disc_toc
        = ⟨0, 2, []⟩ ∧
      (CDIF_ST.Eject badTocEnv (CDIF_ST.Eject badTocEnv demoCDIF true).self false).ret =
        Outcome.assert_failed := by
  have h := C10_Eject_then_insert badTocEnv demoCDIF rfl rfl (fun _ _ => rfl)
  exact ⟨h.2.2.2.1, h.2.2.2.2.1, (h.2.2.2.2.2.1 rfl).2 (by decide)⟩


/-! ## `CDIF_Stream_Thing::seek` -/

theorem i64_of_range {x : Int} (h1 : -9223372036854775808 ≤ x)
    (h2 : x < 9223372036854775808) : i64 x = x := by
  unfold i64; omega

theorem seek_finish_iff (self : CDIF_Stream_Thing) (np : Int)
    (hN : self.sector_count < 4294967296) :
    ((CDIF_Stream_Thing.seek.finish self np).ret = Outcome.returned () ↔
        (0 ≤ np ∧ np ≤ (self.sector_count : Int) * 2048)) ∧
      (0 ≤ np ∧ np ≤ (self.sector_count : Int) * 2048 →
        (CDIF_Stream_Thing.seek.finish self np).self = { self with position := np }) ∧
      (¬ (0 ≤ np ∧ np ≤ (self.sector_count : Int) * 2048) →
        (CDIF_Stream_Thing.seek.finish self np).ret = Outcome.assert_failed ∧
        (CDIF_Stream_Thing.seek.finish self np).self = self) ∧
      (CDIF_Stream_Thing.seek.finish self np).trace = [] := by
  have hlen : i64 ((self.sector_count : Int) * 2048) = (self.sector_count : Int) * 2048 :=
    i64_of_range (by omega) (by omega)
  unfold CDIF_Stream_Thing.seek.finish
  rw [hlen]
  by_cases h : np ≥ 0 ∧ np ≤ (self.sector_count : Int) * 2048
  · simp [h]
  · rw [if_neg h]
    have h2 : ¬ (0 ≤ np ∧ np ≤ (self.sector_count : Int) * 2048) := h
    exact ⟨⟨fun hr => by simp at hr, fun hc => absurd hc h2⟩, fun hc => absurd hc h2,
      fun _ => ⟨rfl, rfl⟩, rfl⟩

/-- On a stream whose position is inside `[0, length]`, the `int64` additions of
`seek` land in `[0, length]` exactly when the exact sums do, and then equal them. -/
theorem seek_candidate (self : CDIF_Stream_Thing) (offset : Int)
    (hN : self.sector_count < 4294967296)
    (hpos : 0 ≤ self.position ∧ self.position ≤ (self.sector_count : Int) * 2048)
    (hoff : -9223372036854775808 ≤ offset ∧ offset < 9223372036854775808) :
    ((0 ≤ i64 (self.position + offset) ∧
        i64 (self.position + offset) ≤ (self.sector_count : Int) * 2048) ↔
      (0 ≤ self.position + offset ∧
        self.position + offset ≤ (self.sector_count : Int) * 2048)) ∧
    ((0 ≤ i64 (i64 ((self.sector_count : Int) * 2048) + offset) ∧
        i64 (i64 ((self.sector_count : Int) * 2048) + offset) ≤
          (self.sector_count : Int) * 2048) ↔
      (0 ≤ (self.sector_count : Int) * 2048 + offset ∧
        (self.sector_count : Int) * 2048 + offset ≤ (self.sector_count : Int) * 2048)) ∧
    (0 ≤ self.position + offset ∧
        self.position + offset ≤ (self.sector_count : Int) * 2048 →
      i64 (self.position + offset) = self.position + offset) ∧
    (0 ≤ (self.sector_count : Int) * 2048 + offset ∧
        (self.sector_count : Int) * 2048 + offset ≤ (self.sector_count : Int) * 2048 →
      i64 (i64 ((self.sector_count : Int) * 2048) + offset) =
        (self.sector_count : Int) * 2048 + offset) := by
  unfold i64
  omega


theorem read_zero {β : Type} (env : Env β) (self : CDIF_Stream_Thing) (cdintf : CDIF_ST β)
    (data : Mem) (e : Bool) :
    CDIF_Stream_Thing.read env self cdintf data 0 e =
      ⟨self, cdintf, data, Outcome.returned 0, []⟩ := by
  unfold CDIF_Stream_Thing.read
  simp

/-- C7: on a stream with position in `[0, length]`, `length = sector_count * 2048`,
for `whence` one of `SEEK_SET`, `SEEK_CUR`, `SEEK_END` and any `int64` offset:
`seek` succeeds exactly when the exact candidate position is in `[0, length]`; then
the position becomes the candidate; otherwise the assertion fails and the stream is
unchanged; `seek` makes no backend call. Seeking to `length` succeeds, and a read of
0 bytes after it returns 0, with no backend call and nothing changed. -/
theorem C7_seek_iff_candidate_in_range {β : Type} (env : Env β) (cdintf : CDIF_ST β)
    (data : Mem) (e : Bool) (self : CDIF_Stream_Thing) (offset whence : Int)
    (hN : self.sector_count < 4294967296)
    (hpos : 0 ≤ self.position ∧ self.position ≤ (self.sector_count : Int) * 2048)
    (hoff : -9223372036854775808 ≤ offset ∧ offset < 9223372036854775808)
    (hwh : whence = SEEK_SET ∨ whence = SEEK_CUR ∨ whence = SEEK_END) :
    ((CDIF_Stream_Thing.seek self offset whence).ret = Outcome.returned () ↔
        (0 ≤ exactCandidate self offset whence ∧
          exactCandidate self offset whence ≤ (self.sector_count : Int) * 2048)) ∧
      ((0 ≤ exactCandidate self offset whence ∧
          exactCandidate self offset whence ≤ (self.sector_count : Int) * 2048) →
        (CDIF_Stream_Thing.seek self offset whence).self =
          { self with position := exactCandidate self offset whence }) ∧
      (¬ (0 ≤ exactCandidate self offset whence ∧
          exactCandidate self offset whence ≤ (self.sector_count : Int) * 2048) →
        (CDIF_Stream_Thing.seek self offset whence).ret = Outcome.assert_failed ∧
          (CDIF_Stream_Thing.seek self offset whence).self = self) ∧
      (CDIF_Stream_Thing.seek self offset whence).trace = [] ∧
      (CDIF_Stream_Thing.seek self ((self.sector_count : Int) * 2048) SEEK_SET).ret =
        Outcome.returned () ∧
      (CDIF_Stream_Thing.seek self ((self.sector_count : Int) * 2048) SEEK_SET).self =
        { self with position := (self.sector_count : Int) * 2048 } ∧
      CDIF_Stream_Thing.read env
          (CDIF_Stream_Thing.seek self ((self.sector_count : Int) * 2048) SEEK_SET).self
          cdintf data 0 e =
        ⟨{ self with position := (self.sector_count : Int) * 2048 }, cdintf, data,
          Outcome.returned 0, []⟩ := by
  obtain ⟨hcur, hend, hcureq, hendeq⟩ := seek_candidate self offset hN hpos hoff
  have hset := seek_finish_iff self offset hN
  have hc := seek_finish_iff self (i64 (self.position + offset)) hN
  have he := seek_finish_iff self
    (i64 (i64 ((self.sector_count : Int) * 2048) + offset)) hN
  have hlen := seek_finish_iff self ((self.sector_count : Int) * 2048) hN
  have hlenok : 0 ≤ (self.sector_count : Int) * 2048 ∧
      (self.sector_count : Int) * 2048 ≤ (self.sector_count : Int) * 2048 := by omega
  have hseeklen : CDIF_Stream_Thing.seek self ((self.sector_count : Int) * 2048) SEEK_SET =
      CDIF_Stream_Thing.seek.finish self ((self.sector_count : Int) * 2048) := by
    simp [CDIF_Stream_Thing.seek]
  refine ⟨?_, ?_, ?_, ?_, ?_, ?_, ?_⟩
  · rcases hwh with h | h | h
    · simp only [h, CDIF_Stream_Thing.seek, exactCandidate, if_true]
      exact hset.1
    · simp only [h, CDIF_Stream_Thing.seek, exactCandidate, SEEK_SET, SEEK_CUR, if_true]
      simp only [show ¬ ((1 : Int) = 0) by decide, if_false]
      exact hc.1.trans hcur
    · simp only [h, CDIF_Stream_Thing.seek, exactCandidate, SEEK_SET, SEEK_CUR, SEEK_END]
      simp only [show ¬ ((2 : Int) = 0) by decide, show ¬ ((2 : Int) = 1) by decide,
        if_false, if_true]
      exact he.1.trans hend
  · rcases hwh with h | h | h
    · simp only [h, CDIF_Stream_Thing.seek, exactCandidate, if_true]
      exact hset.2.1
    · simp only [h, CDIF_Stream_Thing.seek, exactCandidate, SEEK_SET, SEEK_CUR, if_true]
      simp only [show ¬ ((1 : Int) = 0) by decide, if_false]
      intro hin
      rw [hc.2.1 (hcur.2 hin), hcureq hin]
    · simp only [h, CDIF_Stream_Thing.seek, exactCandidate, SEEK_SET, SEEK_CUR, SEEK_END]
      simp only [show ¬ ((2 : Int) = 0) by decide, show ¬ ((2 : Int) = 1) by decide,
        if_false, if_true]
      intro hin
      rw [he.2.1 (hend.2 hin), hendeq hin]
  · rcases hwh with h | h | h
    · simp only [h, CDIF_Stream_Thing.seek, exactCandidate, if_true]
      exact hset.2.2.1
    · simp only [h, CDIF_Stream_Thing.seek, exactCandidate, SEEK_SET, SEEK_CUR, if_true]
      simp only [show ¬ ((1 : Int) = 0) by decide, if_false]
      intro hin
      exact hc.2.2.1 (fun hh => hin (hcur.1 hh))
    · simp only [h, CDIF_Stream_Thing.seek, exactCandidate, SEEK_SET, SEEK_CUR, SEEK_END]
      simp only [show ¬ ((2 : Int) = 0) by decide, show ¬ ((2 : Int) = 1) by decide,
        if_false, if_true]
      intro hin
      exact he.2.2.1 (fun hh => hin (hend.1 hh))
  · rcases hwh with h | h | h
    · simp only [h, CDIF_Stream_Thing.seek, if_true]
      exact hset.2.2.2
    · simp only [h, CDIF_Stream_Thing.seek, SEEK_SET, SEEK_CUR, if_true]
      simp only [show ¬ ((1 : Int) = 0) by decide, if_false]
      exact hc.2.2.2
    · simp only [h, CDIF_Stream_Thing.seek, SEEK_SET, SEEK_CUR, SEEK_END]
      simp only [show ¬ ((2 : Int) = 0) by decide, show ¬ ((2 : Int) = 1) by decide,
        if_false, if_true]
      exact he.2.2.2
  · rw [hseeklen]; exact hlen.1.2 hlenok
  · rw [hseeklen]; exact hlen.2.1 hlenok
  · rw [hseeklen, hlen.2.1 hlenok, read_zero]

/-- Witness of C7: on a stream of 2 sectors at position 4000, `SEEK_CUR` by 96
reaches the end and succeeds. -/
theorem C7_seek_iff_candidate_in_range_witness :
    (CDIF_Stream_Thing.seek ⟨0, 2, 4000⟩ 96 SEEK_CUR).ret = Outcome.returned () ∧
      (CDIF_Stream_Thing.seek ⟨0, 2, 4000⟩ 96 SEEK_CUR).self = ⟨0, 2, 4096⟩ := by
  have h := C7_seek_iff_candidate_in_range demoEnv demoCDIF zeroMem true ⟨0, 2, 4000⟩ 96
    SEEK_CUR (by decide) (by decide) (by decide) (Or.inr (Or.inl rfl))
  exact ⟨h.1.2 (by decide), h.2.1 (by decide)⟩


/-! ## `CDIF_Stream_Thing::read` -/

theorem and_2047 (rp : Nat) : rp &&& 2047 = rp % 2048 :=
  Nat.and_pow_two_sub_one_eq_mod rp 11

theorem and_not_2047 (rp : Nat) (h : rp < 18446744073709551616) :
    rp &&& 18446744073709549568 = rp - rp % 2048 := by
  have e1 : (18446744073709549568 : Nat) = (2 ^ 53 - 1) <<< 11 := by decide
  have e2 : rp - rp % 2048 = (rp >>> 11) <<< 11 := by
    rw [Nat.shiftLeft_eq, Nat.shiftRight_eq_div_pow]
    norm_num
    omega
  rw [e1, e2]
  apply Nat.eq_of_testBit_eq
  intro i
  simp only [Nat.testBit_and, Nat.testBit_shiftLeft, Nat.testBit_shiftRight, Nat.testBit_two_pow_sub_one]
  by_cases hi : 11 ≤ i
  · simp [hi]
    intro hb
    have : i < 64 := by
      by_contra hc
      have := Nat.testBit_lt_two_pow (x := rp) (i := i) (lt_of_lt_of_le h (Nat.pow_le_pow_right (n := 2) (by decide) (by omega : 64 ≤ i)))
      simp [this] at hb
    omega
  · simp [hi]


theorem decodedBytes_length (sec : Nat → Mem) (L N : Nat) :
    (decodedBytes sec L N).length = N * 2048 := by
  induction N with
  | zero => simp [decodedBytes]
  | succ N ih => simp [decodedBytes, ih]; ring

theorem decodedBytes_getElem? (sec : Nat → Mem) (L N m : Nat) (hm : m < N * 2048) :
    (decodedBytes sec L N)[m]? = some (sec (u32 (L + m / 2048)) (m % 2048)) := by
  induction N with
  | zero => omega
  | succ N ih =>
    rw [decodedBytes]
    by_cases h : m < N * 2048
    · rw [List.getElem?_append_left (by rw [decodedBytes_length]; exact h)]
      exact ih h
    · rw [List.getElem?_append_right (by rw [decodedBytes_length]; omega), decodedBytes_length]
      have h1 : m - N * 2048 < 2048 := by omega
      have h2 : m / 2048 = N := by omega
      have h3 : m % 2048 = m - N * 2048 := by omega
      rw [List.getElem?_map, List.getElem?_range h1, h2, h3]
      rfl

theorem ReadRawSector_flags {β : Type} (env : Env β) (self : CDIF_ST β) (buf : Mem)
    (lba : Nat) :
    (CDIF_ST.ReadRawSector env self buf lba).self.UnrecoverableError =
      self.UnrecoverableError := by
  unfold CDIF_ST.ReadRawSector
  simp only
  split_ifs <;> rfl

theorem ReadSector_loop_flags {β : Type} (env : Env β) :
    ∀ (n : Nat) (self : CDIF_ST β) (pBuf : Mem) (off lba ret : Nat)
      (trace : List BackendCall) (t : Mem),
      (CDIF.ReadSector.loop env n self pBuf off lba ret trace t).self.UnrecoverableError =
        self.UnrecoverableError := by
  intro n
  induction n with
  | zero => intros; rfl
  | succ n ih =>
    intro self pBuf off lba ret trace t
    rw [CDIF.ReadSector.loop]
    simp only
    split_ifs <;> simp only [ih, ReadRawSector_flags]

theorem ReadSector_flags {β : Type} (env : Env β) (self : CDIF_ST β) (pBuf : Mem)
    (lba n : Nat) :
    (CDIF.ReadSector env self pBuf lba n).self.UnrecoverableError =
      self.UnrecoverableError := by
  unfold CDIF.ReadSector
  split_ifs
  · rfl
  · exact ReadSector_loop_flags env n self pBuf 0 lba 0 [] env.uninit


theorem read_loop_ok {β : Type} (env : Env β) (self : CDIF_Stream_Thing) (p K : Nat)
    (sec : Nat → Mem) (hp : self.position = (p : Int))
    (hN : self.sector_count < 4294967296)
    (hPK : p + K ≤ self.sector_count * 2048)
    (hdec : ∀ i, i < self.sector_count →
      Decodes env (u32 (self.start_lba + i)) (sec (u32 (self.start_lba + i)))) :
    ∀ (fuel : Nat) (cdintf : CDIF_ST β) (data : Mem) (rp : Nat) (trace : List BackendCall),
      cdintf.UnrecoverableError = false → p ≤ rp →
      (rp < p + K → (p + K - 1) / 2048 - rp / 2048 + 1 ≤ fuel) →
      (CDIF_Stream_Thing.read.loop env self K fuel cdintf data rp trace).ret =
          Outcome.returned () ∧
        (CDIF_Stream_Thing.read.loop env self K fuel cdintf data rp
          trace).cdintf.UnrecoverableError = false ∧
        ∀ j, (CDIF_Stream_Thing.read.loop env self K fuel cdintf data rp trace).data j =
          if rp - p ≤ j ∧ j < K then
            sec (u32 (self.start_lba + (p + j) / 2048)) ((p + j) % 2048)
          else data j := by
  have hend : u64 (self.position + (K : Int)) = p + K := by
    rw [hp]; unfold u64; omega
  intro fuel
  induction fuel with
  | zero =>
    intro cdintf data rp trace hU hrp hfuel
    have hge : ¬ rp < p + K := fun h => by have := hfuel h; omega
    rw [CDIF_Stream_Thing.read.loop, hend, if_neg hge]
    refine ⟨rfl, hU, fun j => ?_⟩
    have : ¬ (rp - p ≤ j ∧ j < K) := by omega
    rw [if_neg this]
  | succ fuel ih =>
    intro cdintf data rp trace hU hrp hfuel
    rw [CDIF_Stream_Thing.read.loop, hend]
    by_cases hlt : rp < p + K
    · have hfuel1 := hfuel hlt
      have hsec : rp / 2048 < self.sector_count := by omega
      obtain ⟨hret, hbuf⟩ := hdec (rp / 2048) hsec cdintf env.uninit hU
      have hU1 := ReadSector_flags env cdintf env.uninit
        (u32 (self.start_lba + rp / 2048)) 1
      rw [hU] at hU1
      have e1 : u64 ((rp : Int) - self.position) = rp - p := by
        rw [hp]; unfold u64; omega
      have e2 : u64 ((K : Int) - ((rp - p : Nat) : Int)) = K - (rp - p) := by
        unfold u64; omega
      have e3 : rp &&& 2047 = rp % 2048 := and_2047 rp
      have e4 : u64 (((rp &&& 18446744073709549568 : Nat) : Int) + 2048) =
          rp - rp % 2048 + 2048 := by
        rw [and_not_2047 rp (by omega)]; unfold u64; omega
      rw [if_pos hlt]
      simp only [if_neg hret, e1, e2, e3, e4]
      obtain ⟨ihret, ihU, ihdata⟩ :=
        ih (CDIF.ReadSector env cdintf env.uninit (u32 (self.start_lba + rp / 2048)) 1).self
          (memcpy data (rp - p)
            (CDIF.ReadSector env cdintf env.uninit (u32 (self.start_lba + rp / 2048)) 1).pBuf
            (rp % 2048) (min (2048 - rp % 2048) (K - (rp - p))))
          (rp - rp % 2048 + 2048)
          (trace ++
            (CDIF.ReadSector env cdintf env.uninit (u32 (self.start_lba + rp / 2048)) 1).trace)
          hU1 (by omega) (by intro h; omega)
      refine ⟨ihret, ihU, fun j => ?_⟩
      rw [ihdata j]
      by_cases hj : rp - p ≤ j ∧ j < K
      · rw [if_pos hj]
        by_cases hj2 : rp - rp % 2048 + 2048 - p ≤ j ∧ j < K
        · rw [if_pos hj2]
        · rw [if_neg hj2]
          unfold memcpy
          have hin : rp - p ≤ j ∧ j < rp - p + min (2048 - rp % 2048) (K - (rp - p)) := by
            omega
          rw [if_pos hin, hbuf _ (by omega)]
          have q1 : (p + j) / 2048 = rp / 2048 := by omega
          have q2 : (p + j) % 2048 = rp % 2048 + (j - (rp - p)) := by omega
          rw [q1, q2]
      · rw [if_neg hj]
        have hj2 : ¬ (rp - rp % 2048 + 2048 - p ≤ j ∧ j < K) := by omega
        rw [if_neg hj2]
        unfold memcpy
        have hout : ¬ (rp - p ≤ j ∧ j < rp - p + min (2048 - rp % 2048) (K - (rp - p))) := by
          omega
        rw [if_neg hout]
    · rw [if_neg hlt]
      refine ⟨rfl, hU, fun j => ?_⟩
      have : ¬ (rp - p ≤ j ∧ j < K) := by omega
      rw [if_neg this]


theorem read_ok {β : Type} (env : Env β) (self : CDIF_Stream_Thing) (p K : Nat)
    (sec : Nat → Mem) (cdintf : CDIF_ST β) (data : Mem) (e : Bool)
    (hp : self.position = (p : Int))
    (hN : self.sector_count < 4294967296)
    (hK : 0 < K)
    (hPK : p + K ≤ self.sector_count * 2048)
    (hU : cdintf.UnrecoverableError = false)
    (hdec : ∀ i, i < self.sector_count →
      Decodes env (u32 (self.start_lba + i)) (sec (u32 (self.start_lba + i)))) :
    (CDIF_Stream_Thing.read env self cdintf data K e).ret = Outcome.returned K ∧
      (CDIF_Stream_Thing.read env self cdintf data K e).self =
        { self with position := ((p + K : Nat) : Int) } ∧
      (CDIF_Stream_Thing.read env self cdintf data K e).cdintf.UnrecoverableError = false ∧
      ∀ j, (CDIF_Stream_Thing.read env self cdintf data K e).data j =
        if j < K then sec (u32 (self.start_lba + (p + j) / 2048)) ((p + j) % 2048)
        else data j := by
  have hrem : u64 ((u64 ((self.sector_count : Int) * 2048) : Nat) - self.position) =
      self.sector_count * 2048 - p := by
    rw [hp]; unfold u64; omega
  have hpos : i64 (self.position + (K : Int)) = ((p + K : Nat) : Int) := by
    rw [hp]; unfold i64; omega
  have hstart : u64 self.position = p := by
    rw [hp]; unfold u64; omega
  obtain ⟨lret, lU, ldata⟩ := read_loop_ok env self p K sec hp hN hPK hdec (K / 2048 + 2)
    cdintf data p [] hU (le_refl p) (by intro _; omega)
  unfold CDIF_Stream_Thing.read
  simp only [hrem]
  have hnot : ¬ (K > self.sector_count * 2048 - p ∧ e = true) := by omega
  have hnot2 : ¬ (K > self.sector_count * 2048 - p) := by omega
  have hK0 : ¬ (K = 0) := by omega
  rw [if_neg hnot]
  simp only [if_neg hnot2, if_neg hK0, hstart, lret, hpos]
  refine ⟨trivial, trivial, lU, fun j => ?_⟩
  rw [ldata j]
  simp

/-- C1: on a stream over the sectors `[L, L + N)` (sector numbers on `uint32`) that
all decode, at position `p`, a read of `K > 0` bytes with `p + K <= N * 2048` returns
`K`; the `K` bytes written are bytes `[p, p + K)` of the concatenation of the decoded
user data of the sectors `L, ..., L + N - 1`, byte `j` being byte `(p + j) % 2048` of
sector `L + (p + j) / 2048`; the bytes of `data` from `K` on are untouched; the
position afterwards is `p + K`. -/
theorem C1_stream_read_concatenation {β : Type} (env : Env β) (L N p K : Nat)
    (sec : Nat → Mem) (cdintf : CDIF_ST β) (data : Mem) (e : Bool)
    (hN : N < 4294967296) (hK : 0 < K) (hPK : p + K ≤ N * 2048)
    (hU : cdintf.UnrecoverableError = false)
    (hdec : ∀ i, i < N → Decodes env (u32 (L + i)) (sec (u32 (L + i)))) :
    (CDIF_Stream_Thing.read env ⟨L, N, (p : Int)⟩ cdintf data K e).ret = Outcome.returned K ∧
      (List.range K).map (CDIF_Stream_Thing.read env ⟨L, N, (p : Int)⟩ cdintf data K e).data =
        ((decodedBytes sec L N).drop p).take K ∧
      (∀ j, j < K → (CDIF_Stream_Thing.read env ⟨L, N, (p : Int)⟩ cdintf data K e).data j =
        sec (u32 (L + (p + j) / 2048)) ((p + j) % 2048)) ∧
      (∀ j, K ≤ j → (CDIF_Stream_Thing.read env ⟨L, N, (p : Int)⟩ cdintf data K e).data j =
        data j) ∧
      (CDIF_Stream_Thing.read env ⟨L, N, (p : Int)⟩ cdintf data K e).self =
        ⟨L, N, ((p + K : Nat) : Int)⟩ := by
  obtain ⟨hret, hself, -, hdata⟩ :=
    read_ok env ⟨L, N, (p : Int)⟩ p K sec cdintf data e rfl hN hK hPK hU hdec
  have hlt : ∀ j, j < K →
      (CDIF_Stream_Thing.read env ⟨L, N, (p : Int)⟩ cdintf data K e).data j =
        sec (u32 (L + (p + j) / 2048)) ((p + j) % 2048) := by
    intro j hj
    rw [hdata j, if_pos hj]
  refine ⟨hret, ?_, hlt, ?_, hself⟩
  · apply List.ext_getElem?
    intro j
    by_cases hj : j < K
    · rw [List.getElem?_map, List.getElem?_range hj, List.getElem?_take_of_lt hj,
        List.getElem?_drop, decodedBytes_getElem? sec L N (p + j) (by omega)]
      simp [hlt j hj]
    · have h1 : ((List.range K).map
          (CDIF_Stream_Thing.read env ⟨L, N, (p : Int)⟩ cdintf data K e).data)[j]? = none := by
        rw [List.getElem?_eq_none_iff]; simp; omega
      have h2 : (((decodedBytes sec L N).drop p).take K)[j]? = none := by
        rw [List.getElem?_eq_none_iff]; simp; omega
      rw [h1, h2]
  · intro j hj
    rw [hdata j, if_neg (by omega)]


/-- Every sector of `demoEnv` decodes to bytes [16, 2064) of `demoSector`. -/
theorem demoEnv_decodes (lba : Nat) :
    Decodes demoEnv lba (fun k => demoSector (16 + k)) := by
  intro cdintf pBuf hU
  have h := ReadSector_one_corrected demoEnv cdintf pBuf lba 1 hU rfl (Or.inl rfl) rfl rfl
    (Or.inl rfl)
  refine ⟨?_, fun k hk => h.2.1 rfl k hk⟩
  rw [h.1]
  decide

/-- Witness of C1: the first 3000 bytes of a stream over the sectors 0 and 1 of
`demoEnv`. -/
theorem C1_stream_read_concatenation_witness :
    (CDIF_Stream_Thing.read demoEnv ⟨0, 2, ((0 : Nat) : Int)⟩ demoCDIF zeroMem 3000 true).ret =
        Outcome.returned 3000 ∧
      (List.range 3000).map
          (CDIF_Stream_Thing.read demoEnv ⟨0, 2, ((0 : Nat) : Int)⟩ demoCDIF zeroMem 3000
            true).data =
        ((decodedBytes (fun _ k => demoSector (16 + k)) 0 2).drop 0).take 3000 ∧
      (CDIF_Stream_Thing.read demoEnv ⟨0, 2, ((0 : Nat) : Int)⟩ demoCDIF zeroMem 3000
          true).self = ⟨0, 2, ((0 + 3000 : Nat) : Int)⟩ := by
  have h := C1_stream_read_concatenation demoEnv 0 2 0 3000 (fun _ k => demoSector (16 + k))
    demoCDIF zeroMem true (by decide) (by decide) (by decide) rfl
    (fun i _ => demoEnv_decodes (u32 (0 + i)))
  exact ⟨h.1, h.2.1, h.2.2.2.2⟩

/-- C8: on a stream at position `p` in `[0, length]`, for a count greater than
`length - p`: with `error_on_eos = true` the read ends in a failed assertion, with no
backend call, the stream, the interface and `data` unchanged; with
`error_on_eos = false` it is in every respect the read of `length - p` bytes (with
either flag), and when the sectors of the stream decode it returns `length - p`
and moves the position to `length`; when `length - p = 0` it returns 0 with no
backend call and the stream, the interface and `data` unchanged. -/
theorem C8_stream_read_past_end {β : Type} (env : Env β) (self : CDIF_Stream_Thing)
    (p count : Nat) (cdintf : CDIF_ST β) (data : Mem)
    (hp : self.position = (p : Int)) (hN : self.sector_count < 4294967296)
    (hle : p ≤ self.sector_count * 2048) (hcount : count > self.sector_count * 2048 - p) :
    CDIF_Stream_Thing.read env self cdintf data count true =
        ⟨self, cdintf, data, Outcome.assert_failed, []⟩ ∧
      (∀ e, CDIF_Stream_Thing.read env self cdintf data count false =
        CDIF_Stream_Thing.read env self cdintf data (self.sector_count * 2048 - p) e) ∧
      (∀ sec : Nat → Mem, cdintf.UnrecoverableError = false →
        (∀ i, i < self.sector_count →
          Decodes env (u32 (self.start_lba + i)) (sec (u32 (self.start_lba + i)))) →
        (CDIF_Stream_Thing.read env self cdintf data count false).ret =
            Outcome.returned (self.sector_count * 2048 - p) ∧
          (CDIF_Stream_Thing.read env self cdintf data count false).self =
            { self with position := ((self.sector_count * 2048 : Nat) : Int) }) ∧
      (self.sector_count * 2048 - p = 0 →
        CDIF_Stream_Thing.read env self cdintf data count false =
          ⟨self, cdintf, data, Outcome.returned 0, []⟩) := by
  have hrem : u64 ((u64 ((self.sector_count : Int) * 2048) : Nat) - self.position) =
      self.sector_count * 2048 - p := by
    rw [hp]; unfold u64; omega
  have hclamp : ∀ e, CDIF_Stream_Thing.read env self cdintf data count false =
      CDIF_Stream_Thing.read env self cdintf data (self.sector_count * 2048 - p) e := by
    intro e
    unfold CDIF_Stream_Thing.read
    simp only [hrem]
    have h1 : ¬ (count > self.sector_count * 2048 - p ∧ false = true) := by simp
    have h2 : ¬ (self.sector_count * 2048 - p > self.sector_count * 2048 - p ∧ e = true) := by
      omega
    have h3 : ¬ (self.sector_count * 2048 - p > self.sector_count * 2048 - p) := by omega
    rw [if_neg h1, if_neg h2]
    simp only [if_pos hcount, if_neg h3]
  refine ⟨?_, hclamp, ?_, ?_⟩
  · unfold CDIF_Stream_Thing.read
    simp only [hrem]
    rw [if_pos ⟨hcount, trivial⟩]
  · intro sec hU hdec
    rw [hclamp false]
    by_cases h0 : self.sector_count * 2048 - p = 0
    · rw [h0, read_zero]
      refine ⟨rfl, ?_⟩
      have : ((self.sector_count * 2048 : Nat) : Int) = self.position := by rw [hp]; omega
      rw [this]
    · obtain ⟨hret, hself, -, -⟩ := read_ok env self p (self.sector_count * 2048 - p) sec cdintf
        data false hp hN (by omega) (by omega) hU hdec
      refine ⟨hret, ?_⟩
      rw [hself]
      have : p + (self.sector_count * 2048 - p) = self.sector_count * 2048 := by omega
      rw [this]
  · intro h0
    rw [hclamp false, h0, read_zero]

/-- Witness of C8: 3000 bytes asked 96 bytes before the end of a stream over the
sectors 0 and 1 of `demoEnv`. -/
theorem C8_stream_read_past_end_witness :
    CDIF_Stream_Thing.read demoEnv ⟨0, 2, ((4000 : Nat) : Int)⟩ demoCDIF zeroMem 3000 true =
        ⟨⟨0, 2, ((4000 : Nat) : Int)⟩, demoCDIF, zeroMem, Outcome.assert_failed, []⟩ ∧
      (CDIF_Stream_Thing.read demoEnv ⟨0, 2, ((4000 : Nat) : Int)⟩ demoCDIF zeroMem 3000
          false).ret = Outcome.returned 96 ∧
      (CDIF_Stream_Thing.read demoEnv ⟨0, 2, ((4000 : Nat) : Int)⟩ demoCDIF zeroMem 3000
          false).self = ⟨0, 2, 4096⟩ := by
  have h := C8_stream_read_past_end demoEnv ⟨0, 2, ((4000 : Nat) : Int)⟩ 4000 3000 demoCDIF
    zeroMem rfl (by decide) (by decide) (by decide)
  have h3 := h.2.2.1 (fun _ k => demoSector (16 + k)) rfl
    (fun i _ => demoEnv_decodes (u32 (0 + i)))
  exact ⟨h.1, h3.1, h3.2⟩


/-! ## Failure of `CDIF_ST::ReadRawSector`, empty runs, `size` and construction -/

/-- C11: `CDIF_ST::ReadRawSector` returns false exactly when `UnrecoverableError` is
set or the backend's raw read threw; whenever it returns false, the bytes
`[0, 2352 + 96)` of the buffer are zero, whatever the backend had written there, and
`UnrecoverableError` and `DiscEjected` are as before the call. -/
theorem C11_ReadRawSector_failure_zero_fills {β : Type} (env : Env β) (self : CDIF_ST β)
    (buf : Mem) (lba : Nat) (h : (CDIF_ST.ReadRawSector env self buf lba).ret = false) :
    (self.UnrecoverableError = true ∨
        (env.cda.Read_Raw_Sector self.disc_cdaccess buf lba).ok = false) ∧
      (∀ k, k < 2352 + 96 → (CDIF_ST.ReadRawSector env self buf lba).buf k = 0) ∧
      (CDIF_ST.ReadRawSector env self buf lba).self.UnrecoverableError =
        self.UnrecoverableError ∧
      (CDIF_ST.ReadRawSector env self buf lba).self.DiscEjected = self.DiscEjected := by
  rcases Bool.eq_false_or_eq_true self.UnrecoverableError with hU | hU
  · have hr : CDIF_ST.ReadRawSector env self buf lba =
        ⟨self, memset buf 0 (2352 + 96), false, []⟩ := by
      unfold CDIF_ST.ReadRawSector
      simp [hU]
    rw [hr]
    exact ⟨Or.inl hU, fun k hk => by simp [memset, hk], rfl, rfl⟩
  · rcases Bool.eq_false_or_eq_true (env.cda.Read_Raw_Sector self.disc_cdaccess buf lba).ok
      with hok | hok
    · rw [ReadRawSector_of_ok env self buf lba hU hok] at h
      simp at h
    · have hr : CDIF_ST.ReadRawSector env self buf lba =
          ⟨{ self with disc_cdaccess :=
              (env.cda.Read_Raw_Sector self.disc_cdaccess buf lba).cda },
            memset (env.cda.Read_Raw_Sector self.disc_cdaccess buf lba).buf 0 (2352 + 96),
            false, [BackendCall.Read_Raw_Sector lba]⟩ := by
        unfold CDIF_ST.ReadRawSector
        simp [hU, hok]
      rw [hr]
      exact ⟨Or.inr hok, fun k hk => by simp [memset, hk], rfl, rfl⟩

/-- Witness of C11: a backend that writes `0xFF` to 100 bytes and then throws. -/
theorem C11_ReadRawSector_failure_zero_fills_witness :
    (CDIF_ST.ReadRawSector throwingEnv demoCDIF demoSector 0).ret = false ∧
      (throwingEnv.cda.Read_Raw_Sector demoCDIF.disc_cdaccess demoSector 0).buf 99 = 255 ∧
      (∀ k, k < 2352 + 96 →
        (CDIF_ST.ReadRawSector throwingEnv demoCDIF demoSector 0).buf k = 0) ∧
      (CDIF_ST.ReadRawSector throwingEnv demoCDIF demoSector 0).self.UnrecoverableError =
        false := by
  have h := C11_ReadRawSector_failure_zero_fills throwingEnv demoCDIF demoSector 0 (by decide)
  exact ⟨by decide, by decide, h.2.1, h.2.2.1⟩

/-- C12, as stated, fails: with `UnrecoverableError` unset, `CDIF::ReadSector` with
`nSectors = 0` returns 0, the very value a failed call returns (here the call for
one sector on a backend that throws, and the call on an interface with
`UnrecoverableError` set). -/
theorem C12_zero_count_counterexample :
    demoCDIF.UnrecoverableError = false ∧
      (CDIF.ReadSector demoEnv demoCDIF zeroMem 0 0).ret = 0 ∧
      (CDIF.ReadSector throwingEnv demoCDIF zeroMem 0 1).ret = 0 ∧
      (CDIF.ReadSector demoEnv brokenCDIF zeroMem 0 0).ret = 0 ∧
      (CDIF.ReadSector demoEnv demoCDIF zeroMem 0 0).ret =
        (CDIF.ReadSector throwingEnv demoCDIF zeroMem 0 1).ret := by
  decide

/-- C12, amended: with `UnrecoverableError` unset, `CDIF::ReadSector` with
`nSectors = 0` makes no backend call, leaves the output buffer and the interface
unchanged, and returns 0, which is also what every failed call returns. -/
theorem C12_ReadSector_zero_count {β : Type} (env : Env β) (self : CDIF_ST β) (pBuf : Mem)
    (lba : Nat) (hU : self.UnrecoverableError = false) :
    (CDIF.ReadSector env self pBuf lba 0).trace = [] ∧
      (CDIF.ReadSector env self pBuf lba 0).pBuf = pBuf ∧
      (CDIF.ReadSector env self pBuf lba 0).self = self ∧
      (CDIF.ReadSector env self pBuf lba 0).ret = 0 ∧
      (CDIF.ReadSector env self pBuf lba 0).ret =
        (CDIF.ReadSector env { self with UnrecoverableError := true } pBuf lba 0).ret := by
  simp [CDIF.ReadSector, CDIF.ReadSector.loop, hU]

/-- Witness of C12: an empty read on `demoCDIF`. -/
theorem C12_ReadSector_zero_count_witness :
    (CDIF.ReadSector demoEnv demoCDIF zeroMem 5 0).trace = [] ∧
      (CDIF.ReadSector demoEnv demoCDIF zeroMem 5 0).pBuf = zeroMem ∧
      (CDIF.ReadSector demoEnv demoCDIF zeroMem 5 0).ret = 0 := by
  have h := C12_ReadSector_zero_count demoEnv demoCDIF zeroMem 5 rfl
  exact ⟨h.1, h.2.1, h.2.2.2.1⟩

/-- C13, at `sector_count = 2097152`: the exact product `sector_count * 2048` is
4294967296, which is the bound `seek` and `read` use (seeking to 4294967296
succeeds, and a read of 1 byte at position 4294967295 is not clamped to 0), but
`size()`, whose product is taken on `uint32`, returns 0; `tell()` returns the
position. -/
theorem C13_size_wraps_at_2097152_sectors :
    ((2097152 : Nat) : Int) * 2048 = 4294967296 ∧
      CDIF_Stream_Thing.size ⟨0, 2097152, 0⟩ = 0 ∧
      (CDIF_Stream_Thing.seek ⟨0, 2097152, 0⟩ 4294967296 SEEK_SET).ret = Outcome.returned () ∧
      (CDIF_Stream_Thing.seek ⟨0, 2097152, 0⟩ 4294967296 SEEK_SET).self.position =
        4294967296 ∧
      (CDIF_Stream_Thing.seek ⟨0, 2097152, 0⟩ 0 SEEK_END).self.position = 4294967296 ∧
      (CDIF_Stream_Thing.read demoEnv ⟨0, 2097152, 4294967295⟩ demoCDIF zeroMem 1 true).ret =
        Outcome.returned 1 ∧
      CDIF_Stream_Thing.tell ⟨0, 2097152, 4294967295⟩ = 4294967295 := by
  decide

/-- C14, when the storage of the new stream holds 5000 where `position` lies:
`MakeStream(0, 2)` gives a stream with `tell() = 5000`, not 0, and its first
`read(3000)` returns 3000 after reading the sectors 2 and 3, which are outside the
stream, and leaves the position at 8000; with 1 in that storage, `tell() = 1` and
the read leaves the position at 3001. -/
theorem C14_MakeStream_position_indeterminate :
    CDIF_Stream_Thing.tell (CDIF.MakeStream 0 2 5000) = 5000 ∧
      (CDIF_Stream_Thing.read demoEnv (CDIF.MakeStream 0 2 5000) demoCDIF zeroMem 3000
        true).ret = Outcome.returned 3000 ∧
      (CDIF_Stream_Thing.read demoEnv (CDIF.MakeStream 0 2 5000) demoCDIF zeroMem 3000
        true).trace = [BackendCall.Read_Raw_Sector 2, BackendCall.Read_Raw_Sector 3] ∧
      (CDIF_Stream_Thing.read demoEnv (CDIF.MakeStream 0 2 5000) demoCDIF zeroMem 3000
        true).self.position = 8000 ∧
      CDIF_Stream_Thing.tell (CDIF.MakeStream 0 2 1) = 1 ∧
      (CDIF_Stream_Thing.read demoEnv (CDIF.MakeStream 0 2 1) demoCDIF zeroMem 3000
        true).self.position = 3001 := by
  decide


/-! ## The stored table of contents -/

theorem ReadRawSector_toc {β : Type} (env : Env β) (self : CDIF_ST β) (buf : Mem)
    (lba : Nat) :
    (CDIF_ST.ReadRawSector env self buf lba).self.disc_toc = self.disc_toc := by
  unfold CDIF_ST.ReadRawSector
  simp only
  split_ifs <;> rfl

theorem ReadSector_loop_toc {β : Type} (env : Env β) :
    ∀ (n : Nat) (self : CDIF_ST β) (pBuf : Mem) (off lba ret : Nat)
      (trace : List BackendCall) (t : Mem),
      (CDIF.ReadSector.loop env n self pBuf off lba ret trace t).self.disc_toc =
        self.disc_toc := by
  intro n
  induction n with
  | zero => intros; rfl
  | succ n ih =>
    intro self pBuf off lba ret trace t
    rw [CDIF.ReadSector.loop]
    simp only
    split_ifs <;> simp only [ih, ReadRawSector_toc]

theorem ReadSector_toc {β : Type} (env : Env β) (self : CDIF_ST β) (pBuf : Mem)
    (lba n : Nat) :
    (CDIF.ReadSector env self pBuf lba n).self.disc_toc = self.disc_toc := by
  unfold CDIF.ReadSector
  split_ifs
  · rfl
  · exact ReadSector_loop_toc env n self pBuf 0 lba 0 [] env.uninit

/-- When `CDIF_ST::Eject` returns true, the stored table is the one stored before or
one that passed the assertion. -/
theorem Eject_true_toc {β : Type} (env : Env β) (self : CDIF_ST β) (x : Bool)
    (h : (CDIF_ST.Eject env self x).ret = Outcome.returned true) :
    (CDIF_ST.Eject env self x).self.disc_toc = self.disc_toc ∨
      (CDIF_ST.Eject env self x).self.disc_toc.valid = true := by
  unfold CDIF_ST.Eject at h ⊢
  simp only at h ⊢
  split_ifs at h ⊢ <;> simp_all

/-- C15, as stated, fails. On `flakyTocBackend` the construction succeeds with a
table of tracks 1 to 2 and `Eject(true)` returns true; the `Read_TOC` of the next
`Eject(false)` sets the first track of the stored table to 0 and throws, so that
call returns false; one more `Eject(false)` finds the flag already clear, returns
true, and the stored table has first track 0. -/
theorem C15_toc_counterexample :
    (CDIF_ST.ctor flakyTocEnv 0 ⟨0, 0, []⟩).ret = Construction.constructed flakyCDIF ∧
      (CDIF_ST.Eject flakyTocEnv flakyCDIF true).ret = Outcome.returned true ∧
      (CDIF_ST.Eject flakyTocEnv (CDIF_ST.Eject flakyTocEnv flakyCDIF true).self false).ret =
        Outcome.returned false ∧
      (CDIF_ST.Eject flakyTocEnv
        (CDIF_ST.Eject flakyTocEnv (CDIF_ST.Eject flakyTocEnv flakyCDIF true).self false).self
        false).ret = Outcome.returned true ∧
      (CDIF_ST.Eject flakyTocEnv
        (CDIF_ST.Eject flakyTocEnv (CDIF_ST.Eject flakyTocEnv flakyCDIF true).self false).self
        false).self.disc_toc.first_track = 0 ∧
      ¬ (1 ≤ (CDIF_ST.Eject flakyTocEnv
        (CDIF_ST.Eject flakyTocEnv (CDIF_ST.Eject flakyTocEnv flakyCDIF true).self false).self
        false).self.disc_toc.first_track) := by
  refine ⟨rfl, by decide, by decide, by decide, by decide, by decide⟩

/-- C15, amended: a constructed `CDIF_ST` stores a table of contents with
`1 <= first_track <= last_track < 100`; an `Eject` call that returns true on an
interface whose stored table satisfies this leaves a stored table that satisfies
it; `ReadSector`, `ReadRawSector` and `HintReadSector` do not change the stored
table. -/
theorem C15_toc_invariant {β : Type} (env : Env β) (cda : β) (toc0 : TOC)
    (self : CDIF_ST β) (x : Bool) (pBuf buf : Mem) (lba n : Nat)
    (hvalid : 1 ≤ self.disc_toc.first_track ∧
      self.disc_toc.first_track ≤ self.disc_toc.last_track ∧ self.disc_toc.last_track < 100) :
    (∀ made, (CDIF_ST.ctor env cda toc0).ret = Construction.constructed made →
        1 ≤ made.disc_toc.first_track ∧
          made.disc_toc.first_track ≤ made.disc_toc.last_track ∧
          made.disc_toc.last_track < 100) ∧
      ((CDIF_ST.Eject env self x).ret = Outcome.returned true →
        1 ≤ (CDIF_ST.Eject env self x).self.disc_toc.first_track ∧
          (CDIF_ST.Eject env self x).self.disc_toc.first_track ≤
            (CDIF_ST.Eject env self x).self.disc_toc.last_track ∧
          (CDIF_ST.Eject env self x).self.disc_toc.last_track < 100) ∧
      (CDIF.ReadSector env self pBuf lba n).self.disc_toc = self.disc_toc ∧
      (CDIF_ST.ReadRawSector env self buf lba).self.disc_toc = self.disc_toc ∧
      (CDIF_ST.HintReadSector env self lba).disc_toc = self.disc_toc := by
  refine ⟨?_, ?_, ReadSector_toc env self pBuf lba n, ReadRawSector_toc env self buf lba, rfl⟩
  · intro made hmade
    unfold CDIF_ST.ctor at hmade
    simp only at hmade
    split_ifs at hmade with h1 h2
    · injection hmade with hm
      rw [← hm]
      exact (TOC_valid_iff _).1 h2
  · intro hret
    rcases Eject_true_toc env self x hret with h | h
    · rw [h]; exact hvalid
    · exact (TOC_valid_iff _).1 h

/-- Witness of C15: the construction on `demoBackend` and an `Eject(false)` after an
`Eject(true)`, which re-reads the table. -/
theorem C15_toc_invariant_witness :
    (1 ≤ demoCDIF.disc_toc.first_track ∧
        demoCDIF.disc_toc.first_track ≤ demoCDIF.disc_toc.last_track ∧
        demoCDIF.disc_toc.last_track < 100) ∧
      (CDIF_ST.ctor demoEnv () ⟨0, 0, []⟩).ret = Construction.constructed demoCDIF ∧
      (CDIF_ST.Eject demoEnv (CDIF_ST.Eject demoEnv demoCDIF true).self false).ret =
        Outcome.returned true ∧
      (1 ≤ (CDIF_ST.Eject demoEnv (CDIF_ST.Eject demoEnv demoCDIF true).self
          false).self.disc_toc.first_track ∧
        (CDIF_ST.Eject demoEnv (CDIF_ST.Eject demoEnv demoCDIF true).self
          false).self.disc_toc.first_track ≤
          (CDIF_ST.Eject demoEnv (CDIF_ST.Eject demoEnv demoCDIF true).self
            false).self.disc_toc.last_track ∧
        (CDIF_ST.Eject demoEnv (CDIF_ST.Eject demoEnv demoCDIF true).self
          false).self.disc_toc.last_track < 100) := by
  have h := C15_toc_invariant demoEnv () ⟨0, 0, []⟩
    (CDIF_ST.Eject demoEnv demoCDIF true).self false zeroMem zeroMem 0 1 (by decide)
  exact ⟨h.1 demoCDIF rfl, rfl, by decide, h.2.1 (by decide)⟩


/-! ## `CDIF_Queue` -/

theorem Write_foldl (q : CDIF_Queue) (ms : List CDIF_Message) :
    ms.foldl CDIF_Queue.Write q = ⟨q.ze_queue ++ ms⟩ := by
  induction ms generalizing q with
  | nil => simp
  | cons m ms ih => simp [List.foldl_cons, ih, CDIF_Queue.Write]

theorem Read_cons (m : CDIF_Message) (rest : List CDIF_Message) (message : CDIF_Message)
    (blocking : Bool) (hm : m.message ≠ CDIF_MSG_FATAL_ERROR) :
    CDIF_Queue.Read ⟨m :: rest⟩ message blocking = ⟨⟨rest⟩, m, Outcome.returned true⟩ := by
  simp [CDIF_Queue.Read, hm]

theorem Read_empty (message : CDIF_Message) (blocking : Bool) :
    CDIF_Queue.Read ⟨[]⟩ message blocking = ⟨⟨[]⟩, message, Outcome.returned false⟩ := by
  simp [CDIF_Queue.Read]

theorem reads_all (ms : List CDIF_Message) :
    ∀ (message : CDIF_Message) (flags : List Bool),
      (∀ m, m ∈ ms → m.message ≠ CDIF_MSG_FATAL_ERROR) → flags.length = ms.length →
      (CDIF_Queue.reads ⟨ms⟩ message flags).1.map (fun r => (r.message, r.ret)) =
          ms.map (fun m => (m, Outcome.returned true)) ∧
        (CDIF_Queue.reads ⟨ms⟩ message flags).2 = ⟨[]⟩ := by
  induction ms with
  | nil =>
    intro message flags _ hlen
    have : flags = [] := List.length_eq_zero.1 hlen
    subst this
    simp [CDIF_Queue.reads]
  | cons m ms ih =>
    intro message flags hms hlen
    cases flags with
    | nil => simp at hlen
    | cons b flags =>
      have hm : m.message ≠ CDIF_MSG_FATAL_ERROR := hms m (List.mem_cons_self m ms)
      obtain ⟨ih1, ih2⟩ := ih m flags (fun x hx => hms x (List.mem_cons_of_mem m hx))
        (by simpa using hlen)
      simp only [CDIF_Queue.reads, Read_cons m ms message b hm, List.map_cons, ih1, ih2]
      exact ⟨trivial, trivial⟩

/-- C16: the messages `ms`, none of kind `CDIF_MSG_FATAL_ERROR`, written in order to
an empty queue: the next `ms.length` calls of `Read`, blocking or not, each return
true and deliver the messages of `ms` in order, every field as written; the queue is
then empty, and a further non-blocking `Read` returns false and leaves the queue and
the caller's message object as they were. -/
theorem C16_queue_fifo (ms : List CDIF_Message) (message other : CDIF_Message)
    (flags : List Bool) (hms : ∀ m, m ∈ ms → m.message ≠ CDIF_MSG_FATAL_ERROR)
    (hlen : flags.length = ms.length) :
    (CDIF_Queue.reads (ms.foldl CDIF_Queue.Write ⟨[]⟩) message flags).1.map
        (fun r => (r.message, r.ret)) = ms.map (fun m => (m, Outcome.returned true)) ∧
      (CDIF_Queue.reads (ms.foldl CDIF_Queue.Write ⟨[]⟩) message flags).2 = ⟨[]⟩ ∧
      CDIF_Queue.Read (CDIF_Queue.reads (ms.foldl CDIF_Queue.Write ⟨[]⟩) message flags).2
        other false = ⟨⟨[]⟩, other, Outcome.returned false⟩ := by
  have hw : ms.foldl CDIF_Queue.Write ⟨[]⟩ = ⟨ms⟩ := by
    rw [Write_foldl]; simp
  rw [hw]
  obtain ⟨h1, h2⟩ := reads_all ms message flags hms hlen
  refine ⟨h1, h2, ?_⟩
  rw [h2, Read_empty]

/-- Witness of C16: two messages written, then read. -/
theorem C16_queue_fifo_witness :
    (CDIF_Queue.reads ([demoMessage1, demoMessage2].foldl CDIF_Queue.Write ⟨[]⟩) demoMessage2
        [true, false]).1.map (fun r => (r.message, r.ret)) =
        [demoMessage1, demoMessage2].map (fun m => (m, Outcome.returned true)) ∧
      CDIF_Queue.Read
        (CDIF_Queue.reads ([demoMessage1, demoMessage2].foldl CDIF_Queue.Write ⟨[]⟩)
          demoMessage2 [true, false]).2
        demoMessage1 false = ⟨⟨[]⟩, demoMessage1, Outcome.returned false⟩ := by
  have h := C16_queue_fifo [demoMessage1, demoMessage2] demoMessage2 demoMessage1 [true, false]
    (by decide) rfl
  exact ⟨h.1, h.2.2⟩


/-! ## Runs of `CDIF::ReadSector` that stop at a sector -/

/-- C17, as stated, fails. With a codec that clears the mode byte, the raw read and
the validation of sector 0 succeed and the raw read of sector 1 fails, so 1 is the
first index at which a raw read or a validation fails; `CDIF::ReadSector` for 2
sectors stops at sector 0 and the backend is never asked for sector 1. And on an
interface with `UnrecoverableError` set the raw read of sector 0 fails, index 0,
without the backend being asked for sector 0. -/
theorem C17_stop_counterexample :
    (CDIF_ST.ReadRawSector modeClearingThenThrowingEnv demoCDIF
        modeClearingThenThrowingEnv.uninit 0).ret = true ∧
      (CDIF.ValidateRawSector modeClearingThenThrowingEnv
        (CDIF_ST.ReadRawSector modeClearingThenThrowingEnv demoCDIF
          modeClearingThenThrowingEnv.uninit 0).buf).ret = true ∧
      (CDIF_ST.ReadRawSector modeClearingThenThrowingEnv demoCDIF
        modeClearingThenThrowingEnv.uninit 1).ret = false ∧
      (CDIF.ReadSector modeClearingThenThrowingEnv demoCDIF zeroMem 0 2).ret = 0 ∧
      (CDIF.ReadSector modeClearingThenThrowingEnv demoCDIF zeroMem 0 2).trace =
        [BackendCall.Read_Raw_Sector 0] ∧
      (CDIF.ReadSector modeClearingThenThrowingEnv demoCDIF zeroMem 0 2).trace ≠
        [BackendCall.Read_Raw_Sector 0, BackendCall.Read_Raw_Sector 1] ∧
      brokenCDIF.UnrecoverableError = true ∧
      (CDIF_ST.ReadRawSector demoEnv brokenCDIF demoEnv.uninit 0).ret = false ∧
      (CDIF.ReadSector demoEnv brokenCDIF zeroMem 0 1).trace = [] ∧
      (CDIF.ReadSector demoEnv brokenCDIF zeroMem 0 1).trace ≠
        [BackendCall.Read_Raw_Sector 0] := by
  decide

/-- C17, amended: with `UnrecoverableError` unset, if `k < n` is the first index of
the run at which the raw read throws, the validation fails or the codec leaves a
mode byte that is neither 1 nor 2, then `CDIF::ReadSector` returns 0, the backend's
raw read has been called once for each of the sectors `lba, ..., lba + k`, in this
order, and for no other; for `i < k` the output slice [i*2048, (i+1)*2048) holds
bytes [16, 2064) of the corrected sector `i` when its mode byte is 1 and bytes
[24, 2072) when it is 2; the output bytes from `k * 2048` on are unchanged. -/
theorem C17_ReadSector_aborts_at_first_failure {β : Type} (env : Env β) (self : CDIF_ST β)
    (pBuf : Mem) (lba n k : Nat) (hU : self.UnrecoverableError = false)
    (hlba : lba < 4294967296) (hk : k < n)
    (hbefore : ∀ i, i < k → SectorValid env self.disc_cdaccess env.uninit lba i ∧
      (((correctedAt env self.disc_cdaccess env.uninit lba i).buf 15).val = 1 ∨
        ((correctedAt env self.disc_cdaccess env.uninit lba i).buf 15).val = 2))
    (hfail : ¬ (SectorValid env self.disc_cdaccess env.uninit lba k ∧
      (((correctedAt env self.disc_cdaccess env.uninit lba k).buf 15).val = 1 ∨
        ((correctedAt env self.disc_cdaccess env.uninit lba k).buf 15).val = 2))) :
    (CDIF.ReadSector env self pBuf lba n).ret = 0 ∧
      (CDIF.ReadSector env self pBuf lba n).trace =
        (List.range (k + 1)).map (fun i => BackendCall.Read_Raw_Sector (u32 (lba + i))) ∧
      (∀ i, i < k →
        (((correctedAt env self.disc_cdaccess env.uninit lba i).buf 15).val = 1 →
          ∀ j, j < 2048 → (CDIF.ReadSector env self pBuf lba n).pBuf (i * 2048 + j) =
            (correctedAt env self.disc_cdaccess env.uninit lba i).buf (16 + j)) ∧
        (((correctedAt env self.disc_cdaccess env.uninit lba i).buf 15).val = 2 →
          ∀ j, j < 2048 → (CDIF.ReadSector env self pBuf lba n).pBuf (i * 2048 + j) =
            (correctedAt env self.disc_cdaccess env.uninit lba i).buf (24 + j))) ∧
      (∀ j, k * 2048 ≤ j → (CDIF.ReadSector env self pBuf lba n).pBuf j = pBuf j) := by
  have hrs : CDIF.ReadSector env self pBuf lba n =
      CDIF.ReadSector.loop env n self pBuf 0 lba 0 [] env.uninit := by
    unfold CDIF.ReadSector
    rw [if_neg (by simp [hU])]
  rw [hrs]
  obtain ⟨hret, htrace, hdata, hrest⟩ :=
    ReadSector_loop_stops env k n self pBuf 0 lba 0 [] env.uninit hU hlba hk hbefore hfail
  refine ⟨hret, by simpa using htrace, ?_, ?_⟩
  · intro i hi
    constructor
    · intro h1 j hj
      have := hdata i j hi hj
      rw [h1] at this
      simpa using this
    · intro h2 j hj
      have := hdata i j hi hj
      rw [h2] at this
      simpa using this
  · intro j hj
    exact hrest j (Or.inr (by omega))

/-- Witness of C17: three sectors asked, the raw read of the second one throws. -/
theorem C17_ReadSector_aborts_at_first_failure_witness :
    (CDIF.ReadSector secondSectorThrowingEnv demoCDIF zeroMem 0 3).ret = 0 ∧
      (CDIF.ReadSector secondSectorThrowingEnv demoCDIF zeroMem 0 3).trace =
        (List.range (1 + 1)).map (fun i => BackendCall.Read_Raw_Sector (u32 (0 + i))) ∧
      (CDIF.ReadSector secondSectorThrowingEnv demoCDIF zeroMem 0 3).pBuf (0 * 2048 + 5) =
        demoSector (16 + 5) ∧
      (CDIF.ReadSector secondSectorThrowingEnv demoCDIF zeroMem 0 3).pBuf 2048 = zeroMem 2048 := by
  have h := C17_ReadSector_aborts_at_first_failure secondSectorThrowingEnv demoCDIF zeroMem 0 3 1
    rfl (by decide) (by decide)
    (fun i hi => by
      have h0 : i = 0 := by omega
      subst h0
      exact ⟨⟨rfl, Or.inl rfl, rfl⟩, Or.inl rfl⟩)
    (fun h => absurd h.1.1 (by decide))
  exact ⟨h.1, h.2.1, (h.2.2.1 0 (by decide)).1 rfl 5 (by decide), h.2.2.2 2048 (by decide)⟩

/-- C18: whatever the state, the backend and the codec do, `CDIF::ReadSector`
returns 0, 1 or 2; when it returns 1 or 2, `UnrecoverableError` is unset, at least
one sector was asked, every sector of the run was read without an exception, had
mode byte 1 or 2, was accepted by the codec and left by it with mode byte 1 or 2, the
backend's raw read was called once for each sector in order, and every output slice
holds the user data of its corrected sector. -/
theorem C18_ReadSector_return_values {β : Type} (env : Env β) (self : CDIF_ST β)
    (pBuf : Mem) (lba n : Nat) (hlba : lba < 4294967296) :
    ((CDIF.ReadSector env self pBuf lba n).ret = 0 ∨
        (CDIF.ReadSector env self pBuf lba n).ret = 1 ∨
        (CDIF.ReadSector env self pBuf lba n).ret = 2) ∧
      ((CDIF.ReadSector env self pBuf lba n).ret ≠ 0 →
        self.UnrecoverableError = false ∧ 0 < n ∧
        (∀ i, i < n → SectorValid env self.disc_cdaccess env.uninit lba i ∧
          (((correctedAt env self.disc_cdaccess env.uninit lba i).buf 15).val = 1 ∨
            ((correctedAt env self.disc_cdaccess env.uninit lba i).buf 15).val = 2)) ∧
        (CDIF.ReadSector env self pBuf lba n).trace =
          (List.range n).map (fun i => BackendCall.Read_Raw_Sector (u32 (lba + i))) ∧
        (∀ i j, i < n → j < 2048 →
          (CDIF.ReadSector env self pBuf lba n).pBuf (i * 2048 + j) =
            (correctedAt env self.disc_cdaccess env.uninit lba i).buf
              ((if ((correctedAt env self.disc_cdaccess env.uninit lba i).buf 15).val = 1
                then 16 else 24) + j))) := by
  rcases Bool.eq_false_or_eq_true self.UnrecoverableError with hU | hU
  · have hrs : CDIF.ReadSector env self pBuf lba n = ⟨self, pBuf, 0, []⟩ := by
      unfold CDIF.ReadSector
      simp [hU]
    rw [hrs]
    exact ⟨Or.inl rfl, fun h => absurd rfl h⟩
  · have hrs : CDIF.ReadSector env self pBuf lba n =
        CDIF.ReadSector.loop env n self pBuf 0 lba 0 [] env.uninit := by
      unfold CDIF.ReadSector
      rw [if_neg (by simp [hU])]
    rw [hrs]
    obtain ⟨hle, hne⟩ := ReadSector_loop_ret env n self pBuf 0 lba 0 [] env.uninit hU hlba (by omega)
    refine ⟨by omega, fun h => ?_⟩
    obtain ⟨hpos, hall⟩ := hne h
    obtain ⟨-, -, htrace, hdata, -⟩ := ReadSector_loop_ok env n self pBuf 0 lba 0 [] env.uninit hU hlba hall
    refine ⟨hU, by omega, hall, by simpa using htrace, fun i j hi hj => ?_⟩
    have := hdata i j hi hj
    simpa using this

/-- Witness of C18: on `lazyEnv` the read of the sectors 0 and 1 returns 1, and
sector 1, for which the backend wrote nothing, counts as read and accepted with what
the first iteration left in `tmpbuf`; with a codec that clears the mode byte the
read returns 0. -/
theorem C18_ReadSector_return_values_witness :
    (CDIF.ReadSector lazyEnv demoCDIF zeroMem 0 2).ret = 1 ∧
      SectorValid lazyEnv demoCDIF.disc_cdaccess lazyEnv.uninit 0 1 ∧
      ((CDIF.ReadSector modeClearingEnv demoCDIF zeroMem 0 2).ret = 0 ∨
        (CDIF.ReadSector modeClearingEnv demoCDIF zeroMem 0 2).ret = 1 ∨
        (CDIF.ReadSector modeClearingEnv demoCDIF zeroMem 0 2).ret = 2) :=
  ⟨by decide,
    (((C18_ReadSector_return_values lazyEnv demoCDIF zeroMem 0 2 (by decide)).2
      (by decide)).2.2.1 1 (by decide)).1,
    (C18_ReadSector_return_values modeClearingEnv demoCDIF zeroMem 0 2 (by decide)).1⟩

/-! ## The ejected flag -/

/-- C19: after `CDIF_ST::Eject(x)` the flag `DiscEjected` is `x` when
`UnrecoverableError` is unset, and is what it was when `UnrecoverableError` is set;
in particular, with `UnrecoverableError` unset and the flag different from `x`, the
call returns false with the flag at `x` when the backend's `Eject` throws, and also
when, on an insert, the backend's `Read_TOC` throws. -/
theorem C19_Eject_flag_not_rolled_back {β : Type} (env : Env β) (self : CDIF_ST β)
    (x : Bool) :
    (CDIF_ST.Eject env self x).self.DiscEjected =
        (if self.UnrecoverableError = true then self.DiscEjected else x) ∧
      (self.UnrecoverableError = false → self.DiscEjected ≠ x →
        (env.cda.Eject self.disc_cdaccess x).ok = false →
        (CDIF_ST.Eject env self x).ret = Outcome.returned false ∧
          (CDIF_ST.Eject env self x).self.DiscEjected = x) ∧
      (self.UnrecoverableError = false → self.DiscEjected ≠ x → x = false →
        (env.cda.Eject self.disc_cdaccess x).ok = true →
        (env.cda.Read_TOC (env.cda.Eject self.disc_cdaccess x).cda self.disc_toc).ok = false →
        (CDIF_ST.Eject env self x).ret = Outcome.returned false ∧
          (CDIF_ST.Eject env self x).self.DiscEjected = x) := by
  refine ⟨?_, ?_, ?_⟩
  · rcases Bool.eq_false_or_eq_true self.UnrecoverableError with hU | hU
    · have hr : CDIF_ST.Eject env self x = ⟨self, Outcome.returned false, []⟩ := by
        unfold CDIF_ST.Eject
        simp [hU]
      rw [hr, if_pos hU]
    · rw [(Eject_flags env self x hU).2, if_neg (by simp [hU])]
  · intro hU hne hthrow
    refine ⟨?_, (Eject_flags env self x hU).2⟩
    unfold CDIF_ST.Eject
    simp [hU, hne, hthrow]
  · intro hU hne hx hok hthrow
    refine ⟨?_, (Eject_flags env self x hU).2⟩
    subst hx
    unfold CDIF_ST.Eject
    simp [hU, hne, hok, hthrow]

/-- Witness of C19: on `flakyTocBackend` the insert after an eject returns false,
its `Read_TOC` having thrown, and the flag is clear all the same. -/
theorem C19_Eject_flag_not_rolled_back_witness :
    (CDIF_ST.Eject flakyTocEnv flakyCDIF true).self.DiscEjected = true ∧
      (CDIF_ST.Eject flakyTocEnv (CDIF_ST.Eject flakyTocEnv flakyCDIF true).self false).ret =
        Outcome.returned false ∧
      (CDIF_ST.Eject flakyTocEnv (CDIF_ST.Eject flakyTocEnv flakyCDIF true).self
        false).self.DiscEjected = false := by
  have h1 := C19_Eject_flag_not_rolled_back flakyTocEnv flakyCDIF true
  have h2 := C19_Eject_flag_not_rolled_back flakyTocEnv
    (CDIF_ST.Eject flakyTocEnv flakyCDIF true).self false
  exact ⟨h1.1, (h2.2.2 rfl (by decide) rfl rfl rfl).1, (h2.2.2 rfl (by decide) rfl rfl rfl).2⟩

/-! ## The position of a stream -/

theorem seek_position (self : CDIF_Stream_Thing) (offset whence : Int)
    (hN : self.sector_count < 4294967296)
    (hpos : 0 ≤ self.position ∧ self.position ≤ (self.sector_count : Int) * 2048) :
    (0 ≤ (CDIF_Stream_Thing.seek self offset whence).self.position ∧
        (CDIF_Stream_Thing.seek self offset whence).self.position ≤
          (self.sector_count : Int) * 2048) ∧
      (CDIF_Stream_Thing.seek self offset whence).self.start_lba = self.start_lba ∧
      (CDIF_Stream_Thing.seek self offset whence).self.sector_count = self.sector_count := by
  have hlen : i64 ((self.sector_count : Int) * 2048) = (self.sector_count : Int) * 2048 :=
    i64_of_range (by omega) (by omega)
  have hfin : ∀ np : Int,
      (0 ≤ (CDIF_Stream_Thing.seek.finish self np).self.position ∧
        (CDIF_Stream_Thing.seek.finish self np).self.position ≤
          (self.sector_count : Int) * 2048) ∧
      (CDIF_Stream_Thing.seek.finish self np).self.start_lba = self.start_lba ∧
      (CDIF_Stream_Thing.seek.finish self np).self.sector_count = self.sector_count := by
    intro np
    unfold CDIF_Stream_Thing.seek.finish
    rw [hlen]
    split_ifs with h
    · exact ⟨⟨h.1, h.2⟩, rfl, rfl⟩
    · exact ⟨hpos, rfl, rfl⟩
  unfold CDIF_Stream_Thing.seek
  split_ifs
  · exact hfin _
  · exact hfin _
  · exact hfin _
  · exact ⟨hpos, rfl, rfl⟩

theorem read_position {β : Type} (env : Env β) (self : CDIF_Stream_Thing)
    (cdintf : CDIF_ST β) (data : Mem) (count : Nat) (e : Bool)
    (hN : self.sector_count < 4294967296)
    (hpos : 0 ≤ self.position ∧ self.position ≤ (self.sector_count : Int) * 2048) :
    (0 ≤ (CDIF_Stream_Thing.read env self cdintf data count e).self.position ∧
        (CDIF_Stream_Thing.read env self cdintf data count e).self.position ≤
          (self.sector_count : Int) * 2048) ∧
      (CDIF_Stream_Thing.read env self cdintf data count e).self.start_lba = self.start_lba ∧
      (CDIF_Stream_Thing.read env self cdintf data count e).self.sector_count =
        self.sector_count := by
  have hrem : (u64 ((u64 ((self.sector_count : Int) * 2048) : Nat) - self.position) : Int) =
      (self.sector_count : Int) * 2048 - self.position := by
    unfold u64; omega
  unfold CDIF_Stream_Thing.read
  simp only
  generalize u64 ((u64 ((self.sector_count : Int) * 2048) : Nat) - self.position) = rem
    at hrem ⊢
  by_cases h1 : count > rem ∧ e = true
  · rw [if_pos h1]
    exact ⟨hpos, rfl, rfl⟩
  · rw [if_neg h1]
    have hc : ((if count > rem then rem else count : Nat) : Int) ≤
        (self.sector_count : Int) * 2048 - self.position := by
      split_ifs <;> omega
    generalize (if count > rem then rem else count) = c at hc ⊢
    by_cases h0 : c = 0
    · rw [if_pos h0]
      exact ⟨hpos, rfl, rfl⟩
    · rw [if_neg h0]
      split
      · refine ⟨?_, rfl, rfl⟩
        show 0 ≤ i64 _ ∧ i64 _ ≤ _
        unfold i64
        omega
      · exact ⟨hpos, rfl, rfl⟩
      · exact ⟨hpos, rfl, rfl⟩

/-- C20: on a stream whose position is in `[0, sector_count * 2048]`, after every
call of a sequence of `seek`, `read` (with either flag), `tell` and `size` calls,
however the calls end, the position is in `[0, sector_count * 2048]` and
`start_lba` and `sector_count` are what they were. -/
theorem C20_stream_position_in_range {β : Type} (env : Env β) (cs : List StreamCall) :
    ∀ (self : CDIF_Stream_Thing) (cdintf : CDIF_ST β),
      self.sector_count < 4294967296 →
      (0 ≤ self.position ∧ self.position ≤ (self.sector_count : Int) * 2048) →
      ∀ st, st ∈ CDIF_Stream_Thing.calls env self cdintf cs →
        (0 ≤ st.self.position ∧ st.self.position ≤ (self.sector_count : Int) * 2048) ∧
          st.self.start_lba = self.start_lba ∧ st.self.sector_count = self.sector_count := by
  induction cs with
  | nil =>
    intro self cdintf _ _ st hst
    simp [CDIF_Stream_Thing.calls] at hst
  | cons c cs ih =>
    intro self cdintf hN hpos st hst
    have hstep : (0 ≤ (CDIF_Stream_Thing.call env self cdintf c).self.position ∧
        (CDIF_Stream_Thing.call env self cdintf c).self.position ≤
          (self.sector_count : Int) * 2048) ∧
        (CDIF_Stream_Thing.call env self cdintf c).self.start_lba = self.start_lba ∧
        (CDIF_Stream_Thing.call env self cdintf c).self.sector_count = self.sector_count := by
      cases c with
      | seek offset whence => exact seek_position self offset whence hN hpos
      | read data count e => exact read_position env self cdintf data count e hN hpos
      | tell => exact ⟨hpos, rfl, rfl⟩
      | size => exact ⟨hpos, rfl, rfl⟩
    simp only [CDIF_Stream_Thing.calls, List.mem_cons] at hst
    rcases hst with rfl | hst
    · exact hstep
    · obtain ⟨hp, hl, hc⟩ := hstep
      have := ih (CDIF_Stream_Thing.call env self cdintf c).self
        (CDIF_Stream_Thing.call env self cdintf c).cdintf (by rw [hc]; exact hN)
        (by rw [hc]; exact hp) st hst
      rw [hc, hl] at this
      exact this

/-- Witness of C20: a seek to the end, a read past the end, a failed seek, `tell`
and `size` on a stream of two sectors. -/
theorem C20_stream_position_in_range_witness :
    List.Forall
      (fun st : StreamStep Unit =>
        (0 ≤ st.self.position ∧ st.self.position ≤ ((2 : Nat) : Int) * 2048) ∧
          st.self.start_lba = 0 ∧ st.self.sector_count = 2)
      (CDIF_Stream_Thing.calls demoEnv ⟨0, 2, 100⟩ demoCDIF
        [StreamCall.seek 0 SEEK_END, StreamCall.read zeroMem 10 false,
          StreamCall.seek (-5000) SEEK_CUR, StreamCall.tell, StreamCall.size]) :=
  List.forall_iff_forall_mem.2
    (C20_stream_position_in_range demoEnv _ ⟨0, 2, 100⟩ demoCDIF (by decide) (by decide))

end Cdromif
